import Mathlib

/-!
Verification development for the CertificateSet controller
(repository PRO-Robotech/certificate-set).

The definitions below are a shallow embedding of the controller package:
the latest revision of the reconciler (Reconcile, reconcileDelete,
reconcileCACertificates, reconcileClientCertificates,
reconcileDerivedSecrets), the helper functions of
internal/controller/certificateset_helpers.go (isSecretReady,
isCertificateReady, isIssuerReady, checkAllResourcesReady,
createOrUpdateCertificate, createOrUpdateIssuer, createOrUpdateSecret,
secretDataEqualForKeys, deleteSecretIfExists, setCondition, patchStatus),
the naming helpers of internal/controller/names.go, and the resource
builders (certificate builders and secret builders).

Modelling conventions:
 - Kubernetes string-typed enumerations (condition status, key usages,
   rotation policies) are plain strings, exactly as in the Go API types.
 - Maps (labels, annotations, secret data) are association lists; map
   assignment and deletion are modelled by ordered update so that two
   states produced by the same operations compare equal.
 - The external resource store (client / APIReader) is an oracle `Env`
   giving each typed Get a result (found / not-found / transport failure)
   and giving each write an injected outcome.  The trace of SUCCESSFUL
   externally visible write calls is accumulated in a `List Action`;
   a failed write changes nothing and contributes no trace entry.
 - `metav1.Time` (condition transition timestamps, deletion timestamp) is
   not modelled beyond a boolean for "deletion timestamp set": no claim
   refers to wall-clock values.
 - Durations are in nanoseconds, as Go time.Duration.
-/

namespace CertSetProof

/-! ## Data model: the CertificateSet API types (api/v1alpha1) -/

/-- `EnvironmentType` of api/v1alpha1: client, system or infra. -/
inductive EnvironmentType where
  | client
  | system
  | infra
deriving DecidableEq, Repr

/-- `IssuerReference` of api/v1alpha1 (apiVersion, kind, name). -/
structure IssuerReference where
  apiVersion : String
  kind : String
  name : String
deriving DecidableEq, Repr

/-- `CertificateSetSpec` of api/v1alpha1. -/
structure CertificateSetSpec where
  argocdCluster : Bool
  environment : EnvironmentType
  kubeconfig : Bool
  issuerRef : IssuerReference
  issuerRefOidc : Option IssuerReference
  kubeconfigEndpoint : String
deriving DecidableEq, Repr

/-- `metav1.Condition`: type, status ("True"/"False"/"Unknown"),
observed generation, reason, message.  LastTransitionTime is not
modelled (no claim refers to it). -/
structure Condition where
  condType : String
  status : String
  observedGeneration : Int
  reason : String
  message : String
deriving DecidableEq, Repr

/-- The CertificateSet object: identity, metadata, spec and status
conditions.  The deletion timestamp is modelled as a boolean
(set / not set). -/
structure CertificateSet where
  name : String
  ns : String
  generation : Int
  labels : List (String × String)
  annotations : List (String × String)
  deletionTimestamp : Bool
  finalizers : List String
  spec : CertificateSetSpec
  conditions : List Condition
deriving DecidableEq, Repr

/-! ## Constants of the controller package -/

def ConditionTypeReady : String := "Ready"
def ConditionTypeProgressing : String := "Progressing"
def ConditionTypeDegraded : String := "Degraded"

/-- `metav1.ConditionTrue`. -/
def ConditionTrue : String := "True"
/-- `metav1.ConditionFalse`. -/
def ConditionFalse : String := "False"

/-- Finalizer for cross-namespace resource cleanup. -/
def finalizerName : String := "certificateset.in-cloud.io/cleanup"

/-- Namespace where ArgoCD cluster secrets are created. -/
def ArgoCDNamespace : String := "beget-argocd"

/-- Requeue interval: 5 * time.Second, in nanoseconds. -/
def defaultRequeueAfter : Nat := 5 * 1000000000

/-! ## Association-list map primitives (Go map reads and writes) -/

/-- Go map read `m[k]` with ok flag: first binding of the key. -/
def lookup (m : List (String × String)) (k : String) : Option String :=
  (m.find? (fun p => p.1 = k)).map (fun p => p.2)

/-- Go map assignment `m[k] = v`: replace the binding in place, or append. -/
def setKey (m : List (String × String)) (k v : String) : List (String × String) :=
  if (m.find? (fun p => p.1 = k)).isSome then
    m.map (fun p => if p.1 = k then (k, v) else p)
  else
    m ++ [(k, v)]

/-! ## Naming helpers (internal/controller/names.go) -/

def suffixCA : String := "-ca"
def suffixSuperAdmin : String := "-super-admin"
def suffixETCD : String := "-etcd"
def suffixProxy : String := "-proxy"
def suffixCAOIDC : String := "-ca-oidc"
def suffixKubeconfig : String := "-kubeconfig"
def suffixArgoCDCluster : String := "-argocd-cluster"

/-- Name for the CA Certificate, Secret and Issuer. -/
def CAName (cs : CertificateSet) : String := cs.name ++ suffixCA

/-- Name for the super-admin Certificate and Secret. -/
def SuperAdminName (cs : CertificateSet) : String := cs.name ++ suffixSuperAdmin

/-- Name for the ETCD Certificate. -/
def ETCDName (cs : CertificateSet) : String := cs.name ++ suffixETCD

/-- Name for the Proxy Certificate. -/
def ProxyName (cs : CertificateSet) : String := cs.name ++ suffixProxy

/-- Name for the CA OIDC Certificate. -/
def CAOIDCName (cs : CertificateSet) : String := cs.name ++ suffixCAOIDC

/-- Name for the kubeconfig Secret. -/
def KubeconfigName (cs : CertificateSet) : String := cs.name ++ suffixKubeconfig

/-- Name for the ArgoCD cluster Secret. -/
def ArgoCDClusterName (cs : CertificateSet) : String := cs.name ++ suffixArgoCDCluster

/-- isSystemOrInfra of the builders file. -/
def isSystemOrInfra (environment : EnvironmentType) : Bool :=
  environment = EnvironmentType.system || environment = EnvironmentType.infra

/-- AllCertificateNames of names.go: every Certificate name that should
exist for this CertificateSet. -/
def AllCertificateNames (cs : CertificateSet) : List String :=
  let names := [CAName cs]
  let names :=
    if isSystemOrInfra cs.spec.environment then
      names ++ [ETCDName cs, ProxyName cs, CAOIDCName cs]
    else names
  if cs.spec.kubeconfig || cs.spec.argocdCluster then
    names ++ [SuperAdminName cs]
  else names

/-! ## cert-manager resource model -/

/-- `cmmeta.ObjectReference`: group, kind, name of a signing authority. -/
structure ObjectReference where
  group : String
  kind : String
  name : String
deriving DecidableEq, Repr

/-- `certmanagerv1.CertificatePrivateKey` (algorithm, rotation policy, size). -/
structure CertificatePrivateKey where
  algorithm : String
  rotationPolicy : String
  size : Nat
deriving DecidableEq, Repr

/-- `certmanagerv1.CertificateSpec` (the fields this controller sets;
pointer-typed fields are Options, with `none` for the Go nil zero value). -/
structure CertificateSpec where
  commonName : String
  duration : Option Nat
  isCA : Bool
  issuerRef : ObjectReference
  privateKey : Option CertificatePrivateKey
  renewBefore : Option Nat
  secretName : String
  secretTemplateLabels : Option (List (String × String))
  subjectOrganizations : Option (List String)
  usages : List String
deriving DecidableEq, Repr

/-- A condition reported on a cert-manager resource (type and status). -/
structure CMCondition where
  condType : String
  status : String
deriving DecidableEq, Repr

/-- A cert-manager Certificate object: metadata, spec, reported status
conditions, and the controller-owner linkage. -/
structure Certificate where
  name : String
  ns : String
  labels : List (String × String)
  annotations : List (String × String)
  ownerRef : Option String
  spec : CertificateSpec
  statusConditions : List CMCondition
deriving DecidableEq, Repr

/-- A cert-manager Issuer object (the controller only builds CA issuers,
whose spec is the CA secret name). -/
structure Issuer where
  name : String
  ns : String
  labels : List (String × String)
  annotations : List (String × String)
  ownerRef : Option String
  caSecretName : String
  statusConditions : List CMCondition
deriving DecidableEq, Repr

/-- A core/v1 Secret object.  Data values are abstract byte strings. -/
structure Secret where
  name : String
  ns : String
  labels : List (String × String)
  annotations : List (String × String)
  ownerRef : Option String
  secretType : String
  data : List (String × String)
deriving DecidableEq, Repr

/-! ## Builders (part of the controller package; latest revision) -/

/-- `schema.ParseGroupVersion(apiVersion).Group`: the part before the
slash when the input contains exactly one slash; empty when there is no
slash (version-only input), for the empty or "/" input, and for a
malformed input with several slashes (there ParseGroupVersion returns a
zero GroupVersion plus an error which the builders ignore). -/
def parseGroupVersionGroup (apiVersion : String) : String :=
  let cl := apiVersion.toList
  if cl.count '/' = 1 then
    String.mk (cl.takeWhile (fun c => c ≠ '/'))
  else ""

/-- CertDuration20Years = 175200 * time.Hour, in nanoseconds. -/
def CertDuration20Years : Nat := 175200 * 3600 * 1000000000

/-- CertDuration1Year = 8760 * time.Hour, in nanoseconds. -/
def CertDuration1Year : Nat := 8760 * 3600 * 1000000000

/-- CertRenewBefore30Days = 720 * time.Hour, in nanoseconds. -/
def CertRenewBefore30Days : Nat := 720 * 3600 * 1000000000

/-- copyAnnotationsForChildResource: clone of the parent annotations with
the kubectl last-applied-configuration annotation removed. -/
def copyAnnotationsForChildResource (source : List (String × String)) :
    List (String × String) :=
  source.filter (fun p => p.1 ≠ "kubectl.kubernetes.io/last-applied-configuration")

/-- buildObjectMeta: metadata for child resources (name, parent namespace,
copied labels, filtered annotations).  Returned here as the four fields
that the Certificate/Issuer/Secret structures embed directly. -/
def childLabels (cs : CertificateSet) : List (String × String) := cs.labels

/-- defaultCAPrivateKey of the builders: RSA / Never / 2048. -/
def defaultCAPrivateKey : CertificatePrivateKey :=
  { algorithm := "RSA", rotationPolicy := "Never", size := 2048 }

/-- caUsages of the builders: cert sign, key encipherment, digital signature. -/
def caUsages : List String :=
  ["cert sign", "key encipherment", "digital signature"]

/-- buildCACertificateWithName: a 20-year CA certificate named `name`,
issued by spec.issuerRef. -/
def buildCACertificateWithName (cs : CertificateSet) (name : String) : Certificate :=
  { name := name
    ns := cs.ns
    labels := cs.labels
    annotations := copyAnnotationsForChildResource cs.annotations
    ownerRef := none
    spec :=
      { commonName := name
        duration := some CertDuration20Years
        isCA := true
        issuerRef :=
          { group := parseGroupVersionGroup cs.spec.issuerRef.apiVersion
            kind := cs.spec.issuerRef.kind
            name := cs.spec.issuerRef.name }
        privateKey := some defaultCAPrivateKey
        renewBefore := some CertRenewBefore30Days
        secretName := name
        secretTemplateLabels := some cs.labels
        subjectOrganizations := none
        usages := caUsages }
    statusConditions := [] }

def buildCACertificate (cs : CertificateSet) : Certificate :=
  buildCACertificateWithName cs (CAName cs)

def buildETCDCertificate (cs : CertificateSet) : Certificate :=
  buildCACertificateWithName cs (ETCDName cs)

def buildProxyCertificate (cs : CertificateSet) : Certificate :=
  buildCACertificateWithName cs (ProxyName cs)

/-- buildIssuer: a CA Issuer named `<name>-ca` consuming the CA secret. -/
def buildIssuer (cs : CertificateSet) : Issuer :=
  { name := CAName cs
    ns := cs.ns
    labels := cs.labels
    annotations := copyAnnotationsForChildResource cs.annotations
    ownerRef := none
    caSecretName := CAName cs
    statusConditions := [] }

/-- buildSuperAdminCertificate: a 1-year client certificate issued by the
named Issuer, organization system:masters. -/
def buildSuperAdminCertificate (cs : CertificateSet) (issuerName : String) :
    Certificate :=
  { name := SuperAdminName cs
    ns := cs.ns
    labels := cs.labels
    annotations := copyAnnotationsForChildResource cs.annotations
    ownerRef := none
    spec :=
      { commonName := SuperAdminName cs
        duration := some CertDuration1Year
        isCA := false
        issuerRef := { group := "cert-manager.io", kind := "Issuer", name := issuerName }
        privateKey := some { algorithm := "RSA", rotationPolicy := "Always", size := 2048 }
        renewBefore := some CertRenewBefore30Days
        secretName := SuperAdminName cs
        secretTemplateLabels := some cs.labels
        subjectOrganizations := some ["system:masters"]
        usages := ["client auth", "data encipherment", "key encipherment"] }
    statusConditions := [] }

/-- buildOIDCCertificate: base certificate whose IsCA/IssuerRef/Usages stay
at their Go zero values unless the environment switch sets them.  The
infra case configures the issuer reference only when spec.issuerRefOidc
is non-nil. -/
def buildOIDCCertificate (cs : CertificateSet) : Certificate :=
  let base : Certificate :=
    { name := CAOIDCName cs
      ns := cs.ns
      labels := cs.labels
      annotations := copyAnnotationsForChildResource cs.annotations
      ownerRef := none
      spec :=
        { commonName := CAOIDCName cs
          duration := some CertDuration20Years
          isCA := false
          issuerRef := { group := "", kind := "", name := "" }
          privateKey := some defaultCAPrivateKey
          renewBefore := some CertRenewBefore30Days
          secretName := CAOIDCName cs
          secretTemplateLabels := some cs.labels
          subjectOrganizations := none
          usages := [] }
      statusConditions := [] }
  match cs.spec.environment with
  | EnvironmentType.system =>
      { base with spec :=
          { base.spec with
              isCA := true
              issuerRef :=
                { group := parseGroupVersionGroup cs.spec.issuerRef.apiVersion
                  kind := cs.spec.issuerRef.kind
                  name := cs.spec.issuerRef.name }
              usages := caUsages } }
  | EnvironmentType.infra =>
      match cs.spec.issuerRefOidc with
      | some oidc =>
          { base with spec :=
              { base.spec with
                  isCA := false
                  issuerRef :=
                    { group := parseGroupVersionGroup oidc.apiVersion
                      kind := oidc.kind
                      name := oidc.name } } }
      | none => base
  | EnvironmentType.client => base

/-! ## Secret builders (internal/controller/secret_builders.go) -/

/-- CertificateData extracted from a cert-manager generated Secret;
the three fields are base64-encoded. -/
structure CertificateData where
  caCert : String
  tlsCert : String
  tlsKey : String
deriving DecidableEq, Repr

/-- Abstract model of base64.StdEncoding.EncodeToString over abstract byte
strings: an injective tagging; no claim depends on the concrete encoding. -/
def base64Encode (s : String) : String := "base64:" ++ s

/-- The kubeconfig template of secret_builders.go, rendered by substituting
the five fields.  Template execution cannot fail here because every
referenced field exists on the data struct, so the rendering is total. -/
def renderKubeconfig (clusterName server caCert tlsCert tlsKey : String) : String :=
  "apiVersion: v1\nclusters:\n    - cluster:\n        certificate-authority-data: "
    ++ caCert
    ++ "\n        server: " ++ server
    ++ "\n      name: " ++ clusterName
    ++ "\ncontexts:\n    - context:\n        cluster: " ++ clusterName
    ++ "\n        user: " ++ clusterName ++ "-super-admin\n      name: "
    ++ clusterName ++ "-super-admin@" ++ clusterName
    ++ "\ncurrent-context: " ++ clusterName ++ "-super-admin@" ++ clusterName
    ++ "\nkind: Config\nusers:\n    - name: " ++ clusterName
    ++ "-super-admin\n      user:\n        client-certificate-data: " ++ tlsCert
    ++ "\n        client-key-data: " ++ tlsKey

/-- The ArgoCD tlsClientConfig JSON template, rendered by substitution. -/
def renderArgoCDConfig (d : CertificateData) : String :=
  "\x7b\n  \"tlsClientConfig\": \x7b\n    \"caData\": \"" ++ d.caCert
    ++ "\",\n    \"certData\": \"" ++ d.tlsCert
    ++ "\",\n    \"insecure\": false,\n    \"keyData\": \"" ++ d.tlsKey
    ++ "\"\n  \x7d\n\x7d"

/-- The Secret object built by buildKubeconfigSecret: the rendered
kubeconfig in an Opaque Secret under key "value". -/
def kubeconfigSecretObj (cs : CertificateSet) (certData : CertificateData) : Secret :=
  { name := KubeconfigName cs
    ns := cs.ns
    labels := cs.labels
    annotations := copyAnnotationsForChildResource cs.annotations
    ownerRef := none
    secretType := "Opaque"
    data := [("value",
      renderKubeconfig cs.name cs.spec.kubeconfigEndpoint
        certData.caCert certData.tlsCert certData.tlsKey)] }

/-- buildKubeconfigSecret.  The Except mirrors the Go error return; the
template execution in this builder always succeeds (all fields present). -/
def buildKubeconfigSecret (cs : CertificateSet) (certData : CertificateData) :
    Except String Secret :=
  Except.ok (kubeconfigSecretObj cs certData)

/-- The Secret object built by buildArgoCDClusterSecret: the cross-scope
registration Secret in the fixed ArgoCD namespace, carrying
config/name/server and the ArgoCD cluster-secret discovery label. -/
def argoCDClusterSecretObj (cs : CertificateSet) (certData : CertificateData) : Secret :=
  { name := ArgoCDClusterName cs
    ns := ArgoCDNamespace
    labels := setKey cs.labels "argocd.argoproj.io/secret-type" "cluster"
    annotations := copyAnnotationsForChildResource cs.annotations
    ownerRef := none
    secretType := "Opaque"
    data := [("config", renderArgoCDConfig certData),
             ("name", cs.name),
             ("server", cs.spec.kubeconfigEndpoint)] }

/-- buildArgoCDClusterSecret, with the same always-successful rendering. -/
def buildArgoCDClusterSecret (cs : CertificateSet) (certData : CertificateData) :
    Except String Secret :=
  Except.ok (argoCDClusterSecretObj cs certData)

/-! ## Status condition management
(meta.FindStatusCondition / meta.SetStatusCondition and the reconciler's
setCondition helper) -/

/-- meta.FindStatusCondition: the first condition of the given type. -/
def findStatusCondition (conds : List Condition) (t : String) : Option Condition :=
  conds.find? (fun c => c.condType = t)

/-- meta.SetStatusCondition: replace the first condition of the same type
in place (updating status, reason, message and observed generation), or
append when no condition of that type exists. -/
def setStatusCondition : List Condition → Condition → List Condition
  | [], c => [c]
  | x :: xs, c =>
      if x.condType = c.condType then c :: xs
      else x :: setStatusCondition xs c

/-- setCondition of certificateset_helpers.go: a pure status-surface update
(it issues no persistence call by construction).  Returns the updated
object and the changed flag: false (object untouched) when an existing
condition of that type already has the same status, reason and message
and its observed generation equals the object's current generation;
otherwise records the condition stamped with the current generation and
returns true. -/
def setCondition (cs : CertificateSet) (condType status reason message : String) :
    CertificateSet × Bool :=
  let newCond : Condition :=
    { condType := condType, status := status,
      observedGeneration := cs.generation,
      reason := reason, message := message }
  match findStatusCondition cs.conditions condType with
  | some existing =>
      if existing.status = status ∧ existing.reason = reason ∧
         existing.message = message ∧ existing.observedGeneration = cs.generation then
        (cs, false)
      else
        ({ cs with conditions := setStatusCondition cs.conditions newCond }, true)
  | none =>
      ({ cs with conditions := setStatusCondition cs.conditions newCond }, true)

/-! ## Finalizer helpers (controllerutil) -/

/-- controllerutil.ContainsFinalizer. -/
def containsFinalizer (cs : CertificateSet) (f : String) : Bool :=
  cs.finalizers.contains f

/-- controllerutil.AddFinalizer: appends unless already present. -/
def addFinalizer (fs : List String) (f : String) : List String :=
  if fs.contains f then fs else fs ++ [f]

/-- controllerutil.RemoveFinalizer: removes every occurrence. -/
def removeFinalizer (fs : List String) (f : String) : List String :=
  fs.filter (fun x => x ≠ f)

/-! ## The external resource store oracle -/

/-- Result of a typed Get against the resource store: found, the
distinguished not-found, or any other transport/lookup failure. -/
inductive GetResult (α : Type) where
  | found : α → GetResult α
  | notFound : GetResult α
  | failure : String → GetResult α
deriving DecidableEq, Repr

/-- Outcome of a Delete call: success, the benign not-found, or failure. -/
inductive DeleteOutcome where
  | ok : DeleteOutcome
  | notFound : DeleteOutcome
  | failure : String → DeleteOutcome
deriving DecidableEq, Repr

/-- The environment for one reconciliation attempt: responses of the
resource store to each Get, and injected outcomes for each category of
write.  `none` for a write-error field means the write succeeds. -/
structure Env where
  getCertificate : String → String → GetResult Certificate
  getIssuer : String → String → GetResult Issuer
  getSecret : String → String → GetResult Secret
  getNamespace : String → GetResult Unit
  createCertificateError : Option String
  updateCertificateError : Option String
  createIssuerError : Option String
  updateIssuerError : Option String
  createSecretError : Option String
  updateSecretError : Option String
  deleteSecretOutcome : String → String → DeleteOutcome
  updateObjectError : Option String
  patchStatusError : Option String

/-- An externally visible write that SUCCEEDED during the attempt. -/
inductive Action where
  | createCertificate : Certificate → Action
  | updateCertificate : Certificate → Action
  | createIssuer : Issuer → Action
  | updateIssuer : Issuer → Action
  | createSecret : Secret → Action
  | updateSecret : Secret → Action
  | deleteSecret : String → String → Action
  | updateObject : CertificateSet → Action
  | patchStatus : CertificateSet → CertificateSet → Action
deriving DecidableEq, Repr

/-- Result of a phase: the successful write actions it issued, and the
error it returned, if any. -/
abbrev PhaseResult := List Action × Option String

/-! ## Readiness oracle (certificateset_helpers.go) -/

/-- The three required key-material fields of a cert-manager secret. -/
def secretHasKeyMaterial (s : Secret) : Bool :=
  (lookup s.data "ca.crt").isSome &&
  (lookup s.data "tls.crt").isSome &&
  (lookup s.data "tls.key").isSome

/-- isSecretReady: not-found is "not ready" with nil error; any other
lookup failure is surfaced; otherwise ready iff ca.crt, tls.crt and
tls.key are all present. -/
def isSecretReady (env : Env) (ns name : String) : Except String Bool :=
  match env.getSecret ns name with
  | GetResult.notFound => Except.ok false
  | GetResult.failure e => Except.error e
  | GetResult.found s => Except.ok (secretHasKeyMaterial s)

/-- isCertificateReady: not-found is "not ready" with nil error; otherwise
the first reported condition of type Ready decides (status "True"),
and an absent Ready condition is "not ready". -/
def isCertificateReady (env : Env) (ns name : String) : Except String Bool :=
  match env.getCertificate ns name with
  | GetResult.notFound => Except.ok false
  | GetResult.failure e => Except.error e
  | GetResult.found cert =>
      match cert.statusConditions.find? (fun c => c.condType = "Ready") with
      | some cond => Except.ok (cond.status = ConditionTrue)
      | none => Except.ok false

/-- isIssuerReady: same shape as isCertificateReady, over Issuers. -/
def isIssuerReady (env : Env) (ns name : String) : Except String Bool :=
  match env.getIssuer ns name with
  | GetResult.notFound => Except.ok false
  | GetResult.failure e => Except.error e
  | GetResult.found issuer =>
      match issuer.statusConditions.find? (fun c => c.condType = "Ready") with
      | some cond => Except.ok (cond.status = ConditionTrue)
      | none => Except.ok false

/-- The Certificate loop of checkAllResourcesReady: walk the names in
order, short-circuiting at the first not-ready Certificate (message names
it) or at the first lookup error. -/
def checkCertsReady (env : Env) (ns : String) : List String → Except String (Bool × String)
  | [] => Except.ok (true, "")
  | n :: rest =>
      match isCertificateReady env ns n with
      | Except.error e => Except.error e
      | Except.ok false => Except.ok (false, "Certificate " ++ n ++ " is not ready")
      | Except.ok true => checkCertsReady env ns rest

/-- checkAllResourcesReady: all Certificates of AllCertificateNames, then
the Issuer when client certificates are needed.  Returns (allReady,
notReadyReason); a lookup error is propagated. -/
def checkAllResourcesReady (env : Env) (cs : CertificateSet) :
    Except String (Bool × String) :=
  match checkCertsReady env cs.ns (AllCertificateNames cs) with
  | Except.error e => Except.error e
  | Except.ok (false, m) => Except.ok (false, m)
  | Except.ok (true, _) =>
      if cs.spec.kubeconfig || cs.spec.argocdCluster then
        match isIssuerReady env cs.ns (CAName cs) with
        | Except.error e => Except.error e
        | Except.ok false =>
            Except.ok (false, "Issuer " ++ CAName cs ++ " is not ready")
        | Except.ok true => Except.ok (true, "")
      else Except.ok (true, "")

/-- getCertificateData: reads the named secret (any error, including
not-found, is propagated) and base64-encodes the three key-material
fields (a Go map read of an absent key yields the empty byte string). -/
def getCertificateData (env : Env) (ns name : String) : Except String CertificateData :=
  match env.getSecret ns name with
  | GetResult.notFound => Except.error ("secrets \"" ++ name ++ "\" not found")
  | GetResult.failure e => Except.error e
  | GetResult.found s =>
      Except.ok
        { caCert := base64Encode ((lookup s.data "ca.crt").getD "")
          tlsCert := base64Encode ((lookup s.data "tls.crt").getD "")
          tlsKey := base64Encode ((lookup s.data "tls.key").getD "") }

/-! ## Create/update/delete helpers (certificateset_helpers.go) -/

/-- The Go zero value of a CertificateSpec (all pointers nil). -/
def emptyCertificateSpec : CertificateSpec :=
  { commonName := ""
    duration := none
    isCA := false
    issuerRef := { group := "", kind := "", name := "" }
    privateKey := none
    renewBefore := none
    secretName := ""
    secretTemplateLabels := none
    subjectOrganizations := none
    usages := [] }

/-- The mutate closure of createOrUpdateCertificate: set the controller
owner reference and copy labels, annotations and spec from the desired
certificate onto the base object. -/
def mutateCertificate (cs : CertificateSet) (desired base : Certificate) : Certificate :=
  { base with
      ownerRef := some cs.name
      labels := desired.labels
      annotations := desired.annotations
      spec := desired.spec }

/-- createOrUpdateCertificate: controllerutil.CreateOrUpdate over a fresh
stub keyed by the desired name/namespace.  Not found: mutate the stub and
Create.  Found: mutate the fetched object; if the mutation is the
identity, do nothing (OperationResultNone); otherwise Update.  Errors are
wrapped with the certificate name. -/
def createOrUpdateCertificate (env : Env) (cs : CertificateSet) (desired : Certificate) :
    PhaseResult :=
  let wrap := fun (e : String) =>
    "failed to create/update Certificate " ++ desired.name ++ ": " ++ e
  match env.getCertificate desired.ns desired.name with
  | GetResult.failure e => ([], some (wrap e))
  | GetResult.notFound =>
      let stub : Certificate :=
        { name := desired.name, ns := desired.ns, labels := [], annotations := [],
          ownerRef := none, spec := emptyCertificateSpec, statusConditions := [] }
      let obj := mutateCertificate cs desired stub
      match env.createCertificateError with
      | some e => ([], some (wrap e))
      | none => ([Action.createCertificate obj], none)
  | GetResult.found existing =>
      let obj := mutateCertificate cs desired existing
      if obj = existing then ([], none)
      else
        match env.updateCertificateError with
        | some e => ([], some (wrap e))
        | none => ([Action.updateCertificate obj], none)

/-- The mutate closure of createOrUpdateIssuer. -/
def mutateIssuer (cs : CertificateSet) (desired base : Issuer) : Issuer :=
  { base with
      ownerRef := some cs.name
      labels := desired.labels
      annotations := desired.annotations
      caSecretName := desired.caSecretName }

/-- createOrUpdateIssuer: controllerutil.CreateOrUpdate for Issuers,
mirror of createOrUpdateCertificate. -/
def createOrUpdateIssuer (env : Env) (cs : CertificateSet) (desired : Issuer) :
    PhaseResult :=
  let wrap := fun (e : String) =>
    "failed to create/update Issuer " ++ desired.name ++ ": " ++ e
  match env.getIssuer desired.ns desired.name with
  | GetResult.failure e => ([], some (wrap e))
  | GetResult.notFound =>
      let stub : Issuer :=
        { name := desired.name, ns := desired.ns, labels := [], annotations := [],
          ownerRef := none, caSecretName := "", statusConditions := [] }
      let obj := mutateIssuer cs desired stub
      match env.createIssuerError with
      | some e => ([], some (wrap e))
      | none => ([Action.createIssuer obj], none)
  | GetResult.found existing =>
      let obj := mutateIssuer cs desired existing
      if obj = existing then ([], none)
      else
        match env.updateIssuerError with
        | some e => ([], some (wrap e))
        | none => ([Action.updateIssuer obj], none)

/-- secretDataEqualForKeys: equality of two data maps restricted to the
managed keys (presence flags must agree, and values where present). -/
def secretDataEqualForKeys (existing new : List (String × String)) (keys : List String) :
    Bool :=
  keys.all (fun k =>
    match lookup existing k, lookup new k with
    | some ev, some nv => ev = nv
    | none, none => true
    | _, _ => false)

/-- createOrUpdateSecret: create when absent; when present and the managed
keys differ, write exactly the managed keys into the existing data (a Go
map read of an absent managed key assigns the empty byte string) and
Update; otherwise do nothing. -/
def createOrUpdateSecret (env : Env) (secret : Secret) (managedKeys : List String) :
    PhaseResult :=
  match env.getSecret secret.ns secret.name with
  | GetResult.notFound =>
      match env.createSecretError with
      | some e => ([], some e)
      | none => ([Action.createSecret secret], none)
  | GetResult.failure e => ([], some e)
  | GetResult.found existing =>
      if secretDataEqualForKeys existing.data secret.data managedKeys then ([], none)
      else
        let newData := managedKeys.foldl
          (fun d k => setKey d k ((lookup secret.data k).getD "")) existing.data
        match env.updateSecretError with
        | some e => ([], some e)
        | none => ([Action.updateSecret { existing with data := newData }], none)

/-- deleteSecretIfExists: Get first (not-found is success with no call);
a Get failure is surfaced; otherwise Delete, treating a not-found from
the Delete itself as success too. -/
def deleteSecretIfExists (env : Env) (ns name : String) : PhaseResult :=
  match env.getSecret ns name with
  | GetResult.notFound => ([], none)
  | GetResult.failure e => ([], some e)
  | GetResult.found _ =>
      match env.deleteSecretOutcome ns name with
      | DeleteOutcome.failure e => ([], some e)
      | DeleteOutcome.ok => ([Action.deleteSecret ns name], none)
      | DeleteOutcome.notFound => ([Action.deleteSecret ns name], none)

/-- patchStatus: Status().Patch with MergeFrom — the call is issued
unconditionally by the callers; this helper records the successful call
(or nothing, when the injected patch error fires). -/
def patchActions (env : Env) (cs original : CertificateSet) : List Action :=
  match env.patchStatusError with
  | some _ => []
  | none => [Action.patchStatus cs original]

/-! ## Reconciliation phases (latest controller revision) -/

/-- reconcileCACertificates: create-or-update the main CA Certificate,
and for system/infra environments the ETCD, Proxy and OIDC certificates,
in that order, stopping at the first error. -/
def reconcileCACertificates (env : Env) (cs : CertificateSet) : PhaseResult :=
  match createOrUpdateCertificate env cs (buildCACertificate cs) with
  | (as1, some e) => (as1, some ("failed to create CA Certificate: " ++ e))
  | (as1, none) =>
      if isSystemOrInfra cs.spec.environment then
        match createOrUpdateCertificate env cs (buildETCDCertificate cs) with
        | (as2, some e) => (as1 ++ as2, some ("failed to create ETCD Certificate: " ++ e))
        | (as2, none) =>
            match createOrUpdateCertificate env cs (buildProxyCertificate cs) with
            | (as3, some e) =>
                (as1 ++ as2 ++ as3, some ("failed to create Proxy Certificate: " ++ e))
            | (as3, none) =>
                match createOrUpdateCertificate env cs (buildOIDCCertificate cs) with
                | (as4, some e) =>
                    (as1 ++ as2 ++ as3 ++ as4,
                     some ("failed to create OIDC Certificate: " ++ e))
                | (as4, none) => (as1 ++ as2 ++ as3 ++ as4, none)
      else (as1, none)

/-- reconcileClientCertificates: create-or-update the Issuer (consuming
the CA secret), then the super-admin Certificate issued by it. -/
def reconcileClientCertificates (env : Env) (cs : CertificateSet) : PhaseResult :=
  let issuer := buildIssuer cs
  match createOrUpdateIssuer env cs issuer with
  | (as1, some e) => (as1, some ("failed to create Issuer: " ++ e))
  | (as1, none) =>
      match createOrUpdateCertificate env cs (buildSuperAdminCertificate cs issuer.name) with
      | (as2, some e) => (as1 ++ as2, some ("failed to create super-admin Certificate: " ++ e))
      | (as2, none) => (as1 ++ as2, none)

/-- reconcileDerivedSecrets: when kubeconfig is enabled, build the
kubeconfig Secret, set the controller owner reference and create-or-update
its managed "value" key; when argocdCluster is enabled, first require the
fixed ArgoCD namespace to exist (a not-found is a hard error, any other
lookup failure is wrapped), then build the registration Secret (no owner
reference: it is cross-namespace) and create-or-update its managed keys. -/
def reconcileDerivedSecrets (env : Env) (cs : CertificateSet) (certData : CertificateData) :
    PhaseResult :=
  let kubeconfigStep : PhaseResult :=
    if cs.spec.kubeconfig then
      match buildKubeconfigSecret cs certData with
      | Except.error e => ([], some ("failed to build kubeconfig Secret: " ++ e))
      | Except.ok sec0 =>
          let sec := { sec0 with ownerRef := some cs.name }
          match createOrUpdateSecret env sec ["value"] with
          | (as1, some e) => (as1, some ("failed to create kubeconfig Secret: " ++ e))
          | (as1, none) => (as1, none)
    else ([], none)
  match kubeconfigStep with
  | (as1, some e) => (as1, some e)
  | (as1, none) =>
      if cs.spec.argocdCluster then
        match env.getNamespace ArgoCDNamespace with
        | GetResult.notFound =>
            (as1, some ("ArgoCD namespace \"" ++ ArgoCDNamespace ++ "\" does not exist"))
        | GetResult.failure e =>
            (as1, some ("failed to check ArgoCD namespace: " ++ e))
        | GetResult.found _ =>
            match buildArgoCDClusterSecret cs certData with
            | Except.error e => (as1, some ("failed to build ArgoCD cluster Secret: " ++ e))
            | Except.ok argocdSecret =>
                match createOrUpdateSecret env argocdSecret ["config", "name", "server"] with
                | (as2, some e) =>
                    (as1 ++ as2, some ("failed to create ArgoCD cluster Secret: " ++ e))
                | (as2, none) => (as1 ++ as2, none)
      else (as1, none)

/-! ## The reconciliation engine (latest Reconcile revision) -/

/-- The ctrl.Result and error of one attempt, together with the in-memory
object at the end of the attempt and the successful write actions. -/
structure ReconcileOutcome where
  requeue : Bool
  requeueAfter : Nat
  err : Option String
  cs : CertificateSet
  actions : List Action
deriving DecidableEq, Repr

/-- reconcileDelete: delete the registration Secret by fixed name in the
fixed ArgoCD namespace (not-found is success); on any failure return the
error with the finalizer kept; on success remove the cleanup finalizer
and persist the object. -/
def reconcileDelete (env : Env) (cs : CertificateSet) : ReconcileOutcome :=
  match deleteSecretIfExists env ArgoCDNamespace (ArgoCDClusterName cs) with
  | (das, some e) =>
      { requeue := false, requeueAfter := 0, err := some e, cs := cs, actions := das }
  | (das, none) =>
      let cs2 := { cs with finalizers := removeFinalizer cs.finalizers finalizerName }
      match env.updateObjectError with
      | some e =>
          { requeue := false, requeueAfter := 0, err := some e, cs := cs2, actions := das }
      | none =>
          { requeue := false, requeueAfter := 0, err := none, cs := cs2,
            actions := das ++ [Action.updateObject cs2] }

/-- Step 6 and Step 7 of Reconcile: readiness aggregation and the terminal
condition writes.  `csOriginal` is the status snapshot taken at the start
of the attempt, `acc` the actions issued so far. -/
def readinessSteps (env : Env) (csOriginal cs : CertificateSet) (acc : List Action) :
    ReconcileOutcome :=
  match checkAllResourcesReady env cs with
  | Except.error e =>
      let cs2 := (setCondition cs ConditionTypeReady ConditionFalse "CheckFailed" e).1
      let cs3 := (setCondition cs2 ConditionTypeDegraded ConditionTrue "Error" e).1
      { requeue := false, requeueAfter := 0, err := some e, cs := cs3,
        actions := acc ++ patchActions env cs3 csOriginal }
  | Except.ok (false, notReadyReason) =>
      let cs2 := (setCondition cs ConditionTypeReady ConditionFalse
        "WaitingForResources" notReadyReason).1
      let cs3 := (setCondition cs2 ConditionTypeProgressing ConditionTrue
        "ResourcesPending" notReadyReason).1
      let cs4 := (setCondition cs3 ConditionTypeDegraded ConditionFalse
        "Healthy" "No errors").1
      match env.patchStatusError with
      | some e =>
          { requeue := false, requeueAfter := 0, err := some e, cs := cs4, actions := acc }
      | none =>
          { requeue := false, requeueAfter := defaultRequeueAfter, err := none, cs := cs4,
            actions := acc ++ [Action.patchStatus cs4 csOriginal] }
  | Except.ok (true, _) =>
      let cs2 := (setCondition cs ConditionTypeReady ConditionTrue
        "AllResourcesReady" "All certificate resources created and ready").1
      let cs3 := (setCondition cs2 ConditionTypeDegraded ConditionFalse
        "Healthy" "No errors").1
      let cs4 := (setCondition cs3 ConditionTypeProgressing ConditionFalse
        "Complete" "Reconciliation complete").1
      match env.patchStatusError with
      | some e =>
          { requeue := false, requeueAfter := 0, err := some e, cs := cs4, actions := acc }
      | none =>
          { requeue := false, requeueAfter := 0, err := none, cs := cs4,
            actions := acc ++ [Action.patchStatus cs4 csOriginal] }

/-- The tail of Reconcile after the client-certificate block: the ArgoCD
drift cleanup (delete the registration Secret when argocdCluster is
false), then the readiness aggregation and terminal condition writes. -/
def reconcileTail (env : Env) (csOriginal cs : CertificateSet) (acc : List Action) :
    ReconcileOutcome :=
  if cs.spec.argocdCluster then
    readinessSteps env csOriginal cs acc
  else
    match deleteSecretIfExists env ArgoCDNamespace (ArgoCDClusterName cs) with
    | (das, some e) =>
        let cs2 := (setCondition cs ConditionTypeDegraded ConditionTrue
          "ArgoCDCleanupFailed" e).1
        { requeue := false, requeueAfter := 0, err := some e, cs := cs2,
          actions := acc ++ das ++ patchActions env cs2 csOriginal }
    | (das, none) => readinessSteps env csOriginal cs (acc ++ das)

/-- Reconcile, the latest revision: deletion branch; finalizer attach with
immediate requeue; Step 1 CA certificates (error reason
CACertificatesFailed); Step 2 wait for the CA secret (5-second requeue,
no error, no condition written); Steps 3-5 when kubeconfig or
argocdCluster is enabled (Issuer and super-admin, wait for the
super-admin secret, derived secrets; error reasons
ClientCertificatesFailed / DerivedSecretsFailed); then the drift cleanup
and readiness steps of reconcileTail. -/
def Reconcile (env : Env) (cs : CertificateSet) : ReconcileOutcome :=
  if cs.deletionTimestamp then
    reconcileDelete env cs
  else if !(containsFinalizer cs finalizerName) then
    let cs1 := { cs with finalizers := addFinalizer cs.finalizers finalizerName }
    match env.updateObjectError with
    | some e =>
        { requeue := false, requeueAfter := 0, err := some e, cs := cs1, actions := [] }
    | none =>
        { requeue := true, requeueAfter := 0, err := none, cs := cs1,
          actions := [Action.updateObject cs1] }
  else
    let csOriginal := cs
    match reconcileCACertificates env cs with
    | (as1, some e) =>
        let cs2 := (setCondition cs ConditionTypeDegraded ConditionTrue
          "CACertificatesFailed" e).1
        { requeue := false, requeueAfter := 0, err := some e, cs := cs2,
          actions := as1 ++ patchActions env cs2 csOriginal }
    | (as1, none) =>
        match isSecretReady env cs.ns (CAName cs) with
        | Except.error e =>
            { requeue := false, requeueAfter := 0, err := some e, cs := cs, actions := as1 }
        | Except.ok false =>
            { requeue := false, requeueAfter := defaultRequeueAfter, err := none,
              cs := cs, actions := as1 }
        | Except.ok true =>
            if cs.spec.kubeconfig || cs.spec.argocdCluster then
              match reconcileClientCertificates env cs with
              | (as2, some e) =>
                  let cs2 := (setCondition cs ConditionTypeDegraded ConditionTrue
                    "ClientCertificatesFailed" e).1
                  { requeue := false, requeueAfter := 0, err := some e, cs := cs2,
                    actions := as1 ++ as2 ++ patchActions env cs2 csOriginal }
              | (as2, none) =>
                  match isSecretReady env cs.ns (SuperAdminName cs) with
                  | Except.error e =>
                      { requeue := false, requeueAfter := 0, err := some e, cs := cs,
                        actions := as1 ++ as2 }
                  | Except.ok false =>
                      { requeue := false, requeueAfter := defaultRequeueAfter, err := none,
                        cs := cs, actions := as1 ++ as2 }
                  | Except.ok true =>
                      match getCertificateData env cs.ns (SuperAdminName cs) with
                      | Except.error e =>
                          { requeue := false, requeueAfter := 0, err := some e, cs := cs,
                            actions := as1 ++ as2 }
                      | Except.ok certData =>
                          match reconcileDerivedSecrets env cs certData with
                          | (as3, some e) =>
                              let cs2 := (setCondition cs ConditionTypeDegraded
                                ConditionTrue "DerivedSecretsFailed" e).1
                              { requeue := false, requeueAfter := 0, err := some e,
                                cs := cs2,
                                actions := as1 ++ as2 ++ as3 ++
                                  patchActions env cs2 csOriginal }
                          | (as3, none) =>
                              reconcileTail env csOriginal cs (as1 ++ as2 ++ as3)
            else
              reconcileTail env csOriginal cs as1

/-! ## Shared lemmas about the status-condition helpers -/

theorem findStatusCondition_setStatusCondition_self (conds : List Condition)
    (c : Condition) :
    findStatusCondition (setStatusCondition conds c) c.condType = some c := by
  induction conds with
  | nil => simp [setStatusCondition, findStatusCondition, List.find?]
  | cons x xs ih =>
      by_cases h : x.condType = c.condType
      · simp [setStatusCondition, findStatusCondition, List.find?, h]
      · simp only [setStatusCondition, if_neg h]
        simp only [findStatusCondition, List.find?] at ih ⊢
        simp [h, ih]

theorem findStatusCondition_setStatusCondition_ne (conds : List Condition)
    (c : Condition) (t : String) (h : c.condType ≠ t) :
    findStatusCondition (setStatusCondition conds c) t = findStatusCondition conds t := by
  induction conds with
  | nil => simp [setStatusCondition, findStatusCondition, List.find?, h]
  | cons x xs ih =>
      by_cases hx : x.condType = c.condType
      · have hxt : ¬ x.condType = t := by rw [hx]; exact h
        simp [setStatusCondition, findStatusCondition, List.find?, hx, h, hxt]
      · simp only [setStatusCondition, if_neg hx]
        simp only [findStatusCondition, List.find?] at ih ⊢
        by_cases hxt : x.condType = t
        · simp [hxt]
        · simp [hxt, ih]

/-- A setCondition whose arguments match the recorded condition is a no-op. -/
theorem setCondition_noop (cs : CertificateSet) (t s r m : String) (e : Condition)
    (he : findStatusCondition cs.conditions t = some e)
    (hs : e.status = s) (hr : e.reason = r) (hm : e.message = m)
    (hg : e.observedGeneration = cs.generation) :
    setCondition cs t s r m = (cs, false) := by
  simp [setCondition, he, hs, hr, hm, hg]

/-- setCondition never changes conditions of other types. -/
theorem findStatusCondition_setCondition_ne (cs : CertificateSet)
    (t0 s r m t : String) (h : t0 ≠ t) :
    findStatusCondition ((setCondition cs t0 s r m).1).conditions t =
      findStatusCondition cs.conditions t := by
  unfold setCondition
  cases hfind : findStatusCondition cs.conditions t0 with
  | some existing =>
      by_cases hmatch : existing.status = s ∧ existing.reason = r ∧
          existing.message = m ∧ existing.observedGeneration = cs.generation
      · simp [hmatch]
      · simp only [hmatch, if_neg, if_false]
        exact findStatusCondition_setStatusCondition_ne cs.conditions _ t h
  | none =>
      simp only []
      exact findStatusCondition_setStatusCondition_ne cs.conditions _ t h

/-- After a non-no-op setCondition, the condition of that type is the
freshly stamped one. -/
theorem findStatusCondition_setCondition_self (cs : CertificateSet)
    (t s r m : String) :
    (setCondition cs t s r m).2 = true →
    findStatusCondition ((setCondition cs t s r m).1).conditions t =
      some { condType := t, status := s, observedGeneration := cs.generation,
             reason := r, message := m } := by
  unfold setCondition
  cases hfind : findStatusCondition cs.conditions t with
  | some existing =>
      by_cases hmatch : existing.status = s ∧ existing.reason = r ∧
          existing.message = m ∧ existing.observedGeneration = cs.generation
      · simp [hmatch]
      · intro _
        simp only [hmatch, if_neg, if_false]
        exact findStatusCondition_setStatusCondition_self cs.conditions _
  | none =>
      intro _
      exact findStatusCondition_setStatusCondition_self cs.conditions _

/-! ## Shared concrete fixtures -/

/-- A concrete signing-authority reference. -/
def sampleIssuerRef : IssuerReference :=
  { apiVersion := "cert-manager.io/v1", kind := "ClusterIssuer", name := "issuer-a" }

/-- A minimal CertificateSet: client environment, both credential flags
off, cleanup finalizer already attached, no conditions yet. -/
def csBase : CertificateSet :=
  { name := "mycluster", ns := "default", generation := 1,
    labels := [], annotations := [],
    deletionTimestamp := false, finalizers := [finalizerName],
    spec := { argocdCluster := false, environment := EnvironmentType.client,
              kubeconfig := false, issuerRef := sampleIssuerRef,
              issuerRefOidc := none, kubeconfigEndpoint := "" },
    conditions := [] }

/-- An environment where every lookup is not-found and every write
succeeds. -/
def nullEnv : Env :=
  { getCertificate := fun _ _ => GetResult.notFound
    getIssuer := fun _ _ => GetResult.notFound
    getSecret := fun _ _ => GetResult.notFound
    getNamespace := fun _ => GetResult.notFound
    createCertificateError := none
    updateCertificateError := none
    createIssuerError := none
    updateIssuerError := none
    createSecretError := none
    updateSecretError := none
    deleteSecretOutcome := fun _ _ => DeleteOutcome.ok
    updateObjectError := none
    patchStatusError := none }

/-! ## Claim C6: setCondition semantics -/

/-- C6: setCondition returns false and leaves the object (hence the
condition list) unchanged exactly when a condition of that type already
exists with the same status, reason and message and an observed
generation equal to the object's current generation; otherwise it records
the condition stamped with the current generation and returns true.  It
is a pure function of the object (no persistence call by construction). -/
theorem c6_setCondition_semantics (cs : CertificateSet) (t s r m : String) :
    ((setCondition cs t s r m).2 = false ↔
      ∃ e, findStatusCondition cs.conditions t = some e ∧
        e.status = s ∧ e.reason = r ∧ e.message = m ∧
        e.observedGeneration = cs.generation)
  ∧ ((setCondition cs t s r m).2 = false → (setCondition cs t s r m).1 = cs)
  ∧ ((setCondition cs t s r m).2 = true →
      findStatusCondition ((setCondition cs t s r m).1).conditions t =
        some { condType := t, status := s, observedGeneration := cs.generation,
               reason := r, message := m }) := by
  refine ⟨?_, ?_, findStatusCondition_setCondition_self cs t s r m⟩
  · constructor
    · intro hfalse
      cases hfind : findStatusCondition cs.conditions t with
      | some existing =>
          by_cases hmatch : existing.status = s ∧ existing.reason = r ∧
              existing.message = m ∧ existing.observedGeneration = cs.generation
          · exact ⟨existing, rfl, hmatch.1, hmatch.2.1, hmatch.2.2.1, hmatch.2.2.2⟩
          · exfalso
            simp only [setCondition, hfind, hmatch, if_false] at hfalse
            simp at hfalse
      | none =>
          exfalso
          simp only [setCondition, hfind] at hfalse
          simp at hfalse
    · rintro ⟨e, hfind, hs, hr, hm, hg⟩
      rw [setCondition_noop cs t s r m e hfind hs hr hm hg]
  · intro hfalse
    cases hfind : findStatusCondition cs.conditions t with
    | some existing =>
        by_cases hmatch : existing.status = s ∧ existing.reason = r ∧
            existing.message = m ∧ existing.observedGeneration = cs.generation
        · simp [setCondition, hfind, hmatch]
        · exfalso
          simp only [setCondition, hfind, hmatch, if_false] at hfalse
          simp at hfalse
    | none =>
        exfalso
        simp only [setCondition, hfind] at hfalse
        simp at hfalse

/-- Witness for C6 at a concrete input: csBase carries no Ready condition,
so the write is recorded with the current generation and returns true. -/
theorem c6_setCondition_semantics_witness :
    findStatusCondition ((setCondition csBase "Ready" "True" "AllResourcesReady"
        "All certificate resources created and ready").1).conditions "Ready" =
      some { condType := "Ready", status := "True", observedGeneration := 1,
             reason := "AllResourcesReady",
             message := "All certificate resources created and ready" } :=
  (c6_setCondition_semantics csBase "Ready" "True" "AllResourcesReady"
      "All certificate resources created and ready").2.2 (by decide)

/-! ## Claim C7: readiness-oracle semantics -/

/-- C7: each readiness oracle treats not-found as "not ready" with a nil
error; isSecretReady is true exactly when all three key-material fields
are present; isCertificateReady and isIssuerReady are true exactly when
the resource exists and its first condition of type Ready has status
"True" (an absent Ready condition yields false with nil error); and any
lookup failure other than not-found is surfaced as an error. -/
theorem c7_readiness_oracle_semantics (env : Env) (ns name : String) :
    (isSecretReady env ns name = Except.ok true ↔
      ∃ s, env.getSecret ns name = GetResult.found s ∧
        (lookup s.data "ca.crt").isSome ∧ (lookup s.data "tls.crt").isSome ∧
        (lookup s.data "tls.key").isSome)
  ∧ (env.getSecret ns name = GetResult.notFound →
      isSecretReady env ns name = Except.ok false)
  ∧ (∀ e, env.getSecret ns name = GetResult.failure e →
      isSecretReady env ns name = Except.error e)
  ∧ (isCertificateReady env ns name = Except.ok true ↔
      ∃ c cond, env.getCertificate ns name = GetResult.found c ∧
        c.statusConditions.find? (fun x => x.condType = "Ready") = some cond ∧
        cond.status = ConditionTrue)
  ∧ (env.getCertificate ns name = GetResult.notFound →
      isCertificateReady env ns name = Except.ok false)
  ∧ (∀ c, env.getCertificate ns name = GetResult.found c →
      c.statusConditions.find? (fun x => x.condType = "Ready") = none →
      isCertificateReady env ns name = Except.ok false)
  ∧ (∀ e, env.getCertificate ns name = GetResult.failure e →
      isCertificateReady env ns name = Except.error e)
  ∧ (isIssuerReady env ns name = Except.ok true ↔
      ∃ i cond, env.getIssuer ns name = GetResult.found i ∧
        i.statusConditions.find? (fun x => x.condType = "Ready") = some cond ∧
        cond.status = ConditionTrue)
  ∧ (env.getIssuer ns name = GetResult.notFound →
      isIssuerReady env ns name = Except.ok false)
  ∧ (∀ i, env.getIssuer ns name = GetResult.found i →
      i.statusConditions.find? (fun x => x.condType = "Ready") = none →
      isIssuerReady env ns name = Except.ok false)
  ∧ (∀ e, env.getIssuer ns name = GetResult.failure e →
      isIssuerReady env ns name = Except.error e) := by
  refine ⟨?_, ?_, ?_, ?_, ?_, ?_, ?_, ?_, ?_, ?_, ?_⟩
  · cases hg : env.getSecret ns name with
    | found s =>
        simp only [isSecretReady, hg, secretHasKeyMaterial]
        constructor
        · intro h
          refine ⟨s, rfl, ?_, ?_, ?_⟩ <;>
            simp only [Except.ok.injEq] at h <;>
            simp [Bool.and_eq_true] at h <;> tauto
        · rintro ⟨s2, hs2, h1, h2, h3⟩
          cases hs2
          simp [h1, h2, h3]
    | notFound => simp [isSecretReady, hg]
    | failure e => simp [isSecretReady, hg]
  · intro h; simp [isSecretReady, h]
  · intro e h; simp [isSecretReady, h]
  · cases hg : env.getCertificate ns name with
    | found c =>
        simp only [isCertificateReady, hg]
        cases hf : c.statusConditions.find? (fun x => x.condType = "Ready") with
        | some cond =>
            constructor
            · intro h
              simp only [Except.ok.injEq, decide_eq_true_eq] at h
              exact ⟨c, cond, rfl, hf, by simpa using h⟩
            · rintro ⟨c2, cond2, hc2, hf2, hs2⟩
              cases hc2
              rw [hf] at hf2
              cases hf2
              simp [hs2]
        | none =>
            simp only []
            constructor
            · intro h; simp at h
            · rintro ⟨c2, cond2, hc2, hf2, hs2⟩
              cases hc2
              rw [hf] at hf2
              cases hf2
    | notFound =>
        simp only [isCertificateReady, hg]
        constructor
        · intro h; simp at h
        · rintro ⟨c2, cond2, hc2, _, _⟩; cases hc2
    | failure e =>
        simp only [isCertificateReady, hg]
        constructor
        · intro h; simp at h
        · rintro ⟨c2, cond2, hc2, _, _⟩; cases hc2
  · intro h; simp [isCertificateReady, h]
  · intro c hc hf; simp [isCertificateReady, hc, hf]
  · intro e h; simp [isCertificateReady, h]
  · cases hg : env.getIssuer ns name with
    | found i =>
        simp only [isIssuerReady, hg]
        cases hf : i.statusConditions.find? (fun x => x.condType = "Ready") with
        | some cond =>
            constructor
            · intro h
              simp only [Except.ok.injEq, decide_eq_true_eq] at h
              exact ⟨i, cond, rfl, hf, by simpa using h⟩
            · rintro ⟨i2, cond2, hi2, hf2, hs2⟩
              cases hi2
              rw [hf] at hf2
              cases hf2
              simp [hs2]
        | none =>
            simp only []
            constructor
            · intro h; simp at h
            · rintro ⟨i2, cond2, hi2, hf2, hs2⟩
              cases hi2
              rw [hf] at hf2
              cases hf2
    | notFound =>
        simp only [isIssuerReady, hg]
        constructor
        · intro h; simp at h
        · rintro ⟨i2, cond2, hi2, _, _⟩; cases hi2
    | failure e =>
        simp only [isIssuerReady, hg]
        constructor
        · intro h; simp at h
        · rintro ⟨i2, cond2, hi2, _, _⟩; cases hi2
  · intro h; simp [isIssuerReady, h]
  · intro i hi hf; simp [isIssuerReady, hi, hf]
  · intro e h; simp [isIssuerReady, h]

/-- Witness for C7 at a concrete input: in the all-not-found environment
every oracle reports not ready with a nil error. -/
theorem c7_readiness_oracle_semantics_witness :
    isSecretReady nullEnv "default" "mycluster-ca" = Except.ok false ∧
    isCertificateReady nullEnv "default" "mycluster-ca" = Except.ok false ∧
    isIssuerReady nullEnv "default" "mycluster-ca" = Except.ok false :=
  ⟨(c7_readiness_oracle_semantics nullEnv "default" "mycluster-ca").2.1 rfl,
   (c7_readiness_oracle_semantics nullEnv "default" "mycluster-ca").2.2.2.2.1 rfl,
   (c7_readiness_oracle_semantics nullEnv "default" "mycluster-ca").2.2.2.2.2.2.2.2.1 rfl⟩

/-! ## Claim C10: OIDC certificate for infra with nil issuerRefOidc -/

/-- C10: for environment infra with a nil issuerRefOidc,
buildOIDCCertificate silently skips all issuer configuration: the
returned spec carries the empty issuer reference (no group, kind or name)
and IsCA = false. -/
theorem c10_buildOIDC_infra_nil_oidc (cs : CertificateSet)
    (henv : cs.spec.environment = EnvironmentType.infra)
    (hoidc : cs.spec.issuerRefOidc = none) :
    (buildOIDCCertificate cs).spec.issuerRef =
      { group := "", kind := "", name := "" } ∧
    (buildOIDCCertificate cs).spec.isCA = false := by
  simp [buildOIDCCertificate, henv, hoidc]

/-- Witness for C10 at a concrete input. -/
theorem c10_buildOIDC_infra_nil_oidc_witness :
    (buildOIDCCertificate
        { csBase with spec := { csBase.spec with environment := EnvironmentType.infra } }).spec.issuerRef =
      { group := "", kind := "", name := "" } ∧
    (buildOIDCCertificate
        { csBase with spec := { csBase.spec with environment := EnvironmentType.infra } }).spec.isCA = false :=
  c10_buildOIDC_infra_nil_oidc _ rfl rfl

/-! ## Claim C9: finalizer attach happens first -/

/-- C9: on a non-deleted CertificateSet without the cleanup finalizer,
Reconcile attaches the finalizer, persists the object and returns an
immediate requeue; the complete action trace is that single object
update — no child-resource creation, readiness query or status write
happens in the attempt. -/
theorem c9_finalizer_attach_first (env : Env) (cs : CertificateSet)
    (hdel : cs.deletionTimestamp = false)
    (hfin : containsFinalizer cs finalizerName = false)
    (hupd : env.updateObjectError = none) :
    Reconcile env cs =
      { requeue := true, requeueAfter := 0, err := none,
        cs := { cs with finalizers := cs.finalizers ++ [finalizerName] },
        actions := [Action.updateObject
          { cs with finalizers := cs.finalizers ++ [finalizerName] }] } := by
  have hc : cs.finalizers.contains finalizerName = false := hfin
  have hc2 : finalizerName ∉ cs.finalizers := by simpa using hc
  simp [Reconcile, hdel, hfin, hupd, addFinalizer, hc, hc2]

/-- Witness for C9 at a concrete input: csBase with no finalizers. -/
theorem c9_finalizer_attach_first_witness :
    Reconcile nullEnv { csBase with finalizers := [] } =
      { requeue := true, requeueAfter := 0, err := none,
        cs := { { csBase with finalizers := [] } with
                  finalizers := ([] : List String) ++ [finalizerName] },
        actions := [Action.updateObject
          { { csBase with finalizers := [] } with
              finalizers := ([] : List String) ++ [finalizerName] }] } :=
  c9_finalizer_attach_first nullEnv { csBase with finalizers := [] }
    rfl (by decide) rfl

/-! ## Claim C8: deletion branch -/

/-- Every action of deleteSecretIfExists is a delete of the given secret. -/
theorem deleteSecretIfExists_actions (env : Env) (nsp nm : String) :
    ∀ a ∈ (deleteSecretIfExists env nsp nm).1, a = Action.deleteSecret nsp nm := by
  intro a ha
  unfold deleteSecretIfExists at ha
  cases hg : env.getSecret nsp nm with
  | notFound => rw [hg] at ha; simp at ha
  | failure e => rw [hg] at ha; simp at ha
  | found s =>
      rw [hg] at ha
      cases hd : env.deleteSecretOutcome nsp nm with
      | failure e => rw [hd] at ha; simp at ha
      | ok => rw [hd] at ha; simp at ha; exact ha
      | notFound => rw [hd] at ha; simp at ha; exact ha

/-- C8: with a deletion timestamp set, Reconcile performs exactly the
deletion branch: it deletes the registration secret named
`<name>-argocd-cluster` in the fixed ArgoCD namespace (not-found counts
as success), removes the cleanup finalizer and persists the object only
after that deletion succeeded; on a deletion failure the finalizer is
kept (the object is unchanged) and the error is returned; and no creation
phase runs — every action of the branch is a secret deletion or the
object update. -/
theorem c8_deletion_branch (env : Env) (cs : CertificateSet)
    (hdel : cs.deletionTimestamp = true) :
    Reconcile env cs = reconcileDelete env cs
  ∧ (env.getSecret ArgoCDNamespace (ArgoCDClusterName cs) = GetResult.notFound →
      deleteSecretIfExists env ArgoCDNamespace (ArgoCDClusterName cs) = ([], none))
  ∧ (∀ das, deleteSecretIfExists env ArgoCDNamespace (ArgoCDClusterName cs) = (das, none) →
      env.updateObjectError = none →
      reconcileDelete env cs =
        { requeue := false, requeueAfter := 0, err := none,
          cs := { cs with finalizers := removeFinalizer cs.finalizers finalizerName },
          actions := das ++ [Action.updateObject
            { cs with finalizers := removeFinalizer cs.finalizers finalizerName }] })
  ∧ (∀ das e, deleteSecretIfExists env ArgoCDNamespace (ArgoCDClusterName cs) = (das, some e) →
      reconcileDelete env cs =
        { requeue := false, requeueAfter := 0, err := some e, cs := cs, actions := das })
  ∧ (∀ a ∈ (reconcileDelete env cs).actions,
      (∃ n2 m2, a = Action.deleteSecret n2 m2) ∨ (∃ o, a = Action.updateObject o)) := by
  refine ⟨by simp [Reconcile, hdel], ?_, ?_, ?_, ?_⟩
  · intro h; simp [deleteSecretIfExists, h]
  · intro das h hupd; simp [reconcileDelete, h, hupd]
  · intro das e h; simp [reconcileDelete, h]
  · intro a ha
    unfold reconcileDelete at ha
    cases hds : deleteSecretIfExists env ArgoCDNamespace (ArgoCDClusterName cs) with
    | mk das derr =>
        rw [hds] at ha
        have hdel2 : ∀ b ∈ das, b = Action.deleteSecret ArgoCDNamespace (ArgoCDClusterName cs) := by
          intro b hb
          exact deleteSecretIfExists_actions env ArgoCDNamespace (ArgoCDClusterName cs) b
            (by rw [hds]; exact hb)
        cases derr with
        | some e =>
            simp only [] at ha
            exact Or.inl ⟨_, _, hdel2 a ha⟩
        | none =>
            cases hu : env.updateObjectError with
            | some e =>
                rw [hu] at ha
                simp only [] at ha
                exact Or.inl ⟨_, _, hdel2 a ha⟩
            | none =>
                rw [hu] at ha
                simp only [] at ha
                rcases List.mem_append.mp ha with hin | hin
                · exact Or.inl ⟨_, _, hdel2 a hin⟩
                · rcases List.mem_singleton.mp hin with rfl
                  exact Or.inr ⟨_, rfl⟩

/-- Witness for C8 at a concrete input: a deleted CertificateSet against
the all-not-found store: the secret is already gone (success), so the
finalizer is removed and the object persisted. -/
theorem c8_deletion_branch_witness :
    Reconcile nullEnv { csBase with deletionTimestamp := true } =
      reconcileDelete nullEnv { csBase with deletionTimestamp := true } ∧
    reconcileDelete nullEnv { csBase with deletionTimestamp := true } =
      { requeue := false, requeueAfter := 0, err := none,
        cs := { { csBase with deletionTimestamp := true } with
                  finalizers := removeFinalizer csBase.finalizers finalizerName },
        actions := ([] : List Action) ++ [Action.updateObject
          { { csBase with deletionTimestamp := true } with
              finalizers := removeFinalizer csBase.finalizers finalizerName }] } := by
  have h := c8_deletion_branch nullEnv { csBase with deletionTimestamp := true } rfl
  exact ⟨h.1, h.2.2.1 [] rfl rfl⟩

/-! ## Claim C1: effect of an issuerRef change on the existing CA Certificate -/

/-- The CertificateSet after its signing-authority reference was changed
from issuer-a to issuer-b. -/
def csIssuerChanged : CertificateSet :=
  { csBase with spec := { csBase.spec with issuerRef :=
      { apiVersion := "cert-manager.io/v1", kind := "ClusterIssuer", name := "issuer-b" } } }

/-- The CA Certificate as stored after the initial reconciliation of
csBase (built from issuer-a, owner reference set). -/
def storedCA : Certificate :=
  mutateCertificate csBase (buildCACertificate csBase)
    { name := CAName csBase, ns := csBase.ns, labels := [], annotations := [],
      ownerRef := none, spec := emptyCertificateSpec, statusConditions := [] }

/-- A store in which the CA Certificate of csBase already exists. -/
def envWithStoredCA : Env :=
  { nullEnv with getCertificate := fun nsp nm =>
      if nsp = "default" && nm = "mycluster-ca" then GetResult.found storedCA
      else GetResult.notFound }

/-- C1 is violated by the code: the claim (and the repository's own CRD
documentation) says Certificates and Issuers are created at most once, so
a later issuerRef change leaves the existing CA Certificate untouched —
but the current createOrUpdateCertificate copies the freshly built spec
onto the existing object and updates it, so reconcileCACertificates run
after the issuerRef change rewrites the stored CA Certificate's issuer
reference from issuer-a to issuer-b. -/
theorem c1_issuer_change_updates_existing_ca :
    reconcileCACertificates envWithStoredCA csIssuerChanged =
      ([Action.updateCertificate
          (mutateCertificate csIssuerChanged (buildCACertificate csIssuerChanged) storedCA)],
       none)
  ∧ storedCA.spec.issuerRef.name = "issuer-a"
  ∧ (mutateCertificate csIssuerChanged (buildCACertificate csIssuerChanged)
      storedCA).spec.issuerRef.name = "issuer-b" := by
  refine ⟨?_, rfl, rfl⟩
  rfl

/-! ## Claim C3: Gate A behaviour when the CA secret is not ready -/

/-- C3 amended: when the CA creation phase succeeds and the CA credential
secret is not yet ready, the attempt returns a fixed 5-second requeue with
no error — but it writes NO condition at this gate (in particular no
Progressing / ResourcesPending) and issues no status call: the object is
returned unchanged and the trace holds only the CA-phase actions. -/
theorem c3_gateA_requeues_without_condition (env : Env) (cs : CertificateSet)
    (as1 : List Action)
    (hdel : cs.deletionTimestamp = false)
    (hfin : containsFinalizer cs finalizerName = true)
    (hca : reconcileCACertificates env cs = (as1, none))
    (hns : isSecretReady env cs.ns (CAName cs) = Except.ok false) :
    Reconcile env cs =
      { requeue := false, requeueAfter := defaultRequeueAfter, err := none,
        cs := cs, actions := as1 } := by
  have hmem : finalizerName ∈ cs.finalizers := by
    simpa [containsFinalizer] using hfin
  simp [Reconcile, hdel, hfin, hca, hns, containsFinalizer, hmem]

/-- Witness for the amended C3 at a concrete input. -/
theorem c3_gateA_requeues_without_condition_witness :
    Reconcile nullEnv csBase =
      { requeue := false, requeueAfter := defaultRequeueAfter, err := none,
        cs := csBase, actions := (reconcileCACertificates nullEnv csBase).1 } :=
  c3_gateA_requeues_without_condition nullEnv csBase
    (reconcileCACertificates nullEnv csBase).1 rfl rfl rfl rfl

/-- Counterexample to C3 as stated: at this concrete input the CA phase
succeeds and the CA secret is absent, the attempt requeues after 5 seconds
with no error, yet the resulting object carries no Progressing condition
at all (the claim asserts Progressing=true with reason ResourcesPending
is set on every such run). -/
theorem c3_counterexample :
    (Reconcile nullEnv csBase).requeueAfter = defaultRequeueAfter ∧
    (Reconcile nullEnv csBase).err = none ∧
    findStatusCondition (Reconcile nullEnv csBase).cs.conditions
      ConditionTypeProgressing = none := by
  refine ⟨rfl, rfl, rfl⟩

/-! ## Action-shape lemmas for the creation phases -/

theorem createOrUpdateCertificate_no_createSecret (env : Env) (cs : CertificateSet)
    (d : Certificate) :
    ∀ s, Action.createSecret s ∉ (createOrUpdateCertificate env cs d).1 := by
  intro s hs
  unfold createOrUpdateCertificate at hs
  cases hg : env.getCertificate d.ns d.name with
  | failure e => rw [hg] at hs; simp at hs
  | notFound =>
      rw [hg] at hs
      cases hc : env.createCertificateError with
      | some e => rw [hc] at hs; simp at hs
      | none => rw [hc] at hs; simp at hs
  | found existing =>
      rw [hg] at hs
      by_cases heq : mutateCertificate cs d existing = existing
      · simp [heq] at hs
      · simp only [if_neg heq] at hs
        cases hu : env.updateCertificateError with
        | some e => rw [hu] at hs; simp at hs
        | none => rw [hu] at hs; simp at hs

theorem createOrUpdateIssuer_no_createSecret (env : Env) (cs : CertificateSet)
    (d : Issuer) :
    ∀ s, Action.createSecret s ∉ (createOrUpdateIssuer env cs d).1 := by
  intro s hs
  unfold createOrUpdateIssuer at hs
  cases hg : env.getIssuer d.ns d.name with
  | failure e => rw [hg] at hs; simp at hs
  | notFound =>
      rw [hg] at hs
      cases hc : env.createIssuerError with
      | some e => rw [hc] at hs; simp at hs
      | none => rw [hc] at hs; simp at hs
  | found existing =>
      rw [hg] at hs
      by_cases heq : mutateIssuer cs d existing = existing
      · simp [heq] at hs
      · simp only [if_neg heq] at hs
        cases hu : env.updateIssuerError with
        | some e => rw [hu] at hs; simp at hs
        | none => rw [hu] at hs; simp at hs

theorem reconcileCACertificates_no_createSecret (env : Env) (cs : CertificateSet) :
    ∀ s, Action.createSecret s ∉ (reconcileCACertificates env cs).1 := by
  intro s hs
  unfold reconcileCACertificates at hs
  rcases h1 : createOrUpdateCertificate env cs (buildCACertificate cs) with ⟨as1, r1⟩
  rw [h1] at hs
  have k1 : Action.createSecret s ∉ as1 := by
    intro hina
    exact createOrUpdateCertificate_no_createSecret env cs (buildCACertificate cs) s
      (by rw [h1]; exact hina)
  cases r1 with
  | some e => exact k1 (by simpa using hs)
  | none =>
      cases hsys : isSystemOrInfra cs.spec.environment with
      | false => rw [hsys] at hs; simp at hs; exact k1 hs
      | true =>
          rw [hsys] at hs
          simp only [if_true] at hs
          rcases h2 : createOrUpdateCertificate env cs (buildETCDCertificate cs) with ⟨as2, r2⟩
          rw [h2] at hs
          have k2 : Action.createSecret s ∉ as2 := by
            intro hina
            exact createOrUpdateCertificate_no_createSecret env cs (buildETCDCertificate cs) s
              (by rw [h2]; exact hina)
          cases r2 with
          | some e => simp only [List.mem_append] at hs; rcases hs with hs | hs
                      · exact k1 hs
                      · exact k2 hs
          | none =>
              rcases h3 : createOrUpdateCertificate env cs (buildProxyCertificate cs) with ⟨as3, r3⟩
              rw [h3] at hs
              have k3 : Action.createSecret s ∉ as3 := by
                intro hina
                exact createOrUpdateCertificate_no_createSecret env cs (buildProxyCertificate cs) s
                  (by rw [h3]; exact hina)
              cases r3 with
              | some e => simp only [List.mem_append] at hs
                          rcases hs with (hs | hs) | hs
                          · exact k1 hs
                          · exact k2 hs
                          · exact k3 hs
              | none =>
                  rcases h4 : createOrUpdateCertificate env cs (buildOIDCCertificate cs) with ⟨as4, r4⟩
                  rw [h4] at hs
                  have k4 : Action.createSecret s ∉ as4 := by
                    intro hina
                    exact createOrUpdateCertificate_no_createSecret env cs
                      (buildOIDCCertificate cs) s (by rw [h4]; exact hina)
                  cases r4 with
                  | some e => simp only [List.mem_append] at hs
                              rcases hs with ((hs | hs) | hs) | hs
                              · exact k1 hs
                              · exact k2 hs
                              · exact k3 hs
                              · exact k4 hs
                  | none => simp only [List.mem_append] at hs
                            rcases hs with ((hs | hs) | hs) | hs
                            · exact k1 hs
                            · exact k2 hs
                            · exact k3 hs
                            · exact k4 hs

theorem reconcileClientCertificates_no_createSecret (env : Env) (cs : CertificateSet) :
    ∀ s, Action.createSecret s ∉ (reconcileClientCertificates env cs).1 := by
  intro s hs
  simp only [reconcileClientCertificates] at hs
  rcases h1 : createOrUpdateIssuer env cs (buildIssuer cs) with ⟨as1, r1⟩
  rw [h1] at hs
  have k1 : Action.createSecret s ∉ as1 := by
    intro hina
    exact createOrUpdateIssuer_no_createSecret env cs (buildIssuer cs) s
      (by rw [h1]; exact hina)
  cases r1 with
  | some e => exact k1 (by simpa using hs)
  | none =>
      rcases h2 : createOrUpdateCertificate env cs
          (buildSuperAdminCertificate cs (buildIssuer cs).name) with ⟨as2, r2⟩
      rw [h2] at hs
      have k2 : Action.createSecret s ∉ as2 := by
        intro hina
        exact createOrUpdateCertificate_no_createSecret env cs
          (buildSuperAdminCertificate cs (buildIssuer cs).name) s (by rw [h2]; exact hina)
      cases r2 with
      | some e => simp only [List.mem_append] at hs
                  rcases hs with hs | hs
                  · exact k1 hs
                  · exact k2 hs
      | none => simp only [List.mem_append] at hs
                rcases hs with hs | hs
                · exact k1 hs
                · exact k2 hs

/-- The only secret createOrUpdateSecret can create is the one it was
given. -/
theorem createOrUpdateSecret_creates (env : Env) (sec : Secret) (keys : List String) :
    ∀ s, Action.createSecret s ∈ (createOrUpdateSecret env sec keys).1 → s = sec := by
  intro s hs
  unfold createOrUpdateSecret at hs
  cases hg : env.getSecret sec.ns sec.name with
  | notFound =>
      rw [hg] at hs
      cases hc : env.createSecretError with
      | some e => rw [hc] at hs; simp at hs
      | none => rw [hc] at hs; simpa using hs
  | failure e => rw [hg] at hs; simp at hs
  | found existing =>
      rw [hg] at hs
      by_cases heq : secretDataEqualForKeys existing.data sec.data keys = true
      · simp [heq] at hs
      · simp only [heq, if_false] at hs
        cases hu : env.updateSecretError with
        | some e => rw [hu] at hs; simp at hs
        | none => rw [hu] at hs; simp at hs

/-- A found condition has the searched type. -/
theorem findStatusCondition_some_condType (conds : List Condition) (t : String)
    (e : Condition) (h : findStatusCondition conds t = some e) : e.condType = t := by
  simpa using List.find?_some h

/-- After any setCondition the condition of that type reads back as the
stamped record (whether the write was a no-op or not). -/
theorem setCondition_find_self (cs : CertificateSet) (t s r m : String) :
    findStatusCondition ((setCondition cs t s r m).1).conditions t =
      some { condType := t, status := s, observedGeneration := cs.generation,
             reason := r, message := m } := by
  cases hfind : findStatusCondition cs.conditions t with
  | some existing =>
      by_cases hmatch : existing.status = s ∧ existing.reason = r ∧
          existing.message = m ∧ existing.observedGeneration = cs.generation
      · have ht : existing.condType = t :=
          findStatusCondition_some_condType cs.conditions t existing hfind
        have hex : existing =
            { condType := t, status := s, observedGeneration := cs.generation,
              reason := r, message := m } := by
          cases existing
          simp only [Condition.mk.injEq]
          exact ⟨ht, hmatch.1, hmatch.2.2.2, hmatch.2.1, hmatch.2.2.1⟩
        rw [setCondition_noop cs t s r m existing hfind hmatch.1 hmatch.2.1
          hmatch.2.2.1 hmatch.2.2.2]
        exact hfind.trans (congrArg some hex)
      · simp only [setCondition, hfind, hmatch, if_false]
        exact findStatusCondition_setStatusCondition_self cs.conditions _
  | none =>
      simp only [setCondition, hfind]
      exact findStatusCondition_setStatusCondition_self cs.conditions _

/-! ## Claim C5: missing ArgoCD namespace is a hard failure -/

/-- C5: when argocdCluster is enabled and the fixed external namespace is
absent at the derived-secrets phase, the attempt fails hard: Degraded is
set true with reason DerivedSecretsFailed (message naming the missing
namespace), the namespace-missing error is returned with no timed
requeue, and no secret is created in the ArgoCD namespace — in
particular no registration secret. -/
theorem c5_argocd_namespace_missing (env : Env) (cs : CertificateSet)
    (certData : CertificateData) (as1 as2 : List Action)
    (hdel : cs.deletionTimestamp = false)
    (hfin : containsFinalizer cs finalizerName = true)
    (hargocd : cs.spec.argocdCluster = true)
    (hnsne : cs.ns ≠ ArgoCDNamespace)
    (hca : reconcileCACertificates env cs = (as1, none))
    (hcasec : isSecretReady env cs.ns (CAName cs) = Except.ok true)
    (hcc : reconcileClientCertificates env cs = (as2, none))
    (hsasec : isSecretReady env cs.ns (SuperAdminName cs) = Except.ok true)
    (hcd : getCertificateData env cs.ns (SuperAdminName cs) = Except.ok certData)
    (hnsf : env.getNamespace ArgoCDNamespace = GetResult.notFound)
    (hkc : ∀ sec0, buildKubeconfigSecret cs certData = Except.ok sec0 →
      (createOrUpdateSecret env { sec0 with ownerRef := some cs.name } ["value"]).2 = none) :
    (Reconcile env cs).err =
      some ("ArgoCD namespace \"" ++ ArgoCDNamespace ++ "\" does not exist")
  ∧ (Reconcile env cs).requeue = false
  ∧ (Reconcile env cs).requeueAfter = 0
  ∧ findStatusCondition (Reconcile env cs).cs.conditions ConditionTypeDegraded =
      some { condType := ConditionTypeDegraded, status := ConditionTrue,
             observedGeneration := cs.generation, reason := "DerivedSecretsFailed",
             message := "ArgoCD namespace \"" ++ ArgoCDNamespace ++ "\" does not exist" }
  ∧ (∀ s, Action.createSecret s ∈ (Reconcile env cs).actions → s.ns ≠ ArgoCDNamespace) := by
  have hmem : finalizerName ∈ cs.finalizers := by
    simpa [containsFinalizer] using hfin
  -- the kubeconfig sub-step of the derived phase
  rcases hks : createOrUpdateSecret env
      { kubeconfigSecretObj cs certData with ownerRef := some cs.name }
      ["value"] with ⟨ks, kr⟩
  have hkr : kr = none := by
    have h2 := hkc (kubeconfigSecretObj cs certData) rfl
    rw [hks] at h2
    exact h2
  subst hkr
  -- the derived phase fails with the namespace-missing error
  have hderiv : reconcileDerivedSecrets env cs certData =
      ((if cs.spec.kubeconfig then ks else []),
       some ("ArgoCD namespace \"" ++ ArgoCDNamespace ++ "\" does not exist")) := by
    by_cases hkcb : cs.spec.kubeconfig
    · simp only [reconcileDerivedSecrets, hkcb, if_true, buildKubeconfigSecret]
      rw [hks]
      simp [hargocd, hnsf]
    · simp only [reconcileDerivedSecrets, hkcb, if_false]
      simp [hargocd, hnsf]
  -- the Reconcile outcome
  have hrec : Reconcile env cs =
      { requeue := false, requeueAfter := 0,
        err := some ("ArgoCD namespace \"" ++ ArgoCDNamespace ++ "\" does not exist"),
        cs := (setCondition cs ConditionTypeDegraded ConditionTrue "DerivedSecretsFailed"
          ("ArgoCD namespace \"" ++ ArgoCDNamespace ++ "\" does not exist")).1,
        actions := as1 ++ as2 ++ (if cs.spec.kubeconfig then ks else []) ++
          patchActions env
            (setCondition cs ConditionTypeDegraded ConditionTrue "DerivedSecretsFailed"
              ("ArgoCD namespace \"" ++ ArgoCDNamespace ++ "\" does not exist")).1 cs } := by
    simp only [Reconcile, hdel, Bool.false_eq_true, if_false, containsFinalizer]
    rw [show cs.finalizers.contains finalizerName = true from hfin]
    simp only [Bool.not_true, Bool.false_eq_true, if_false]
    rw [hca]
    simp only []
    rw [hcasec]
    simp only [hargocd, Bool.or_true, if_true]
    rw [hcc]
    simp only []
    rw [hsasec, hcd]
    simp only []
    rw [hderiv]
  refine ⟨by rw [hrec], by rw [hrec], by rw [hrec], ?_, ?_⟩
  · rw [hrec]
    exact setCondition_find_self cs ConditionTypeDegraded ConditionTrue
      "DerivedSecretsFailed" ("ArgoCD namespace \"" ++ ArgoCDNamespace ++ "\" does not exist")
  · rw [hrec]
    intro s hsmem
    simp only [List.mem_append] at hsmem
    rcases hsmem with ((hsmem | hsmem) | hsmem) | hsmem
    · exact absurd hsmem
        (by
          intro hina
          exact reconcileCACertificates_no_createSecret env cs s (by rw [hca]; exact hina))
    · exact absurd hsmem
        (by
          intro hina
          exact reconcileClientCertificates_no_createSecret env cs s (by rw [hcc]; exact hina))
    · by_cases hkcb : cs.spec.kubeconfig
      · rw [if_pos hkcb] at hsmem
        have hseq := createOrUpdateSecret_creates env _ ["value"] s (by rw [hks]; exact hsmem)
        intro habs
        apply hnsne
        rw [← habs, hseq]
        rfl
      · rw [if_neg hkcb] at hsmem
        simp at hsmem
    · unfold patchActions at hsmem
      cases hp : env.patchStatusError with
      | some e => rw [hp] at hsmem; simp at hsmem
      | none => rw [hp] at hsmem; simp at hsmem

/-- A cert-manager credential secret carrying all three key-material
fields. -/
def readySecret (nm : String) : Secret :=
  { name := nm, ns := "default", labels := [], annotations := [],
    ownerRef := none, secretType := "",
    data := [("ca.crt", "ca"), ("tls.crt", "crt"), ("tls.key", "key")] }

/-- csBase with argocdCluster enabled and an endpoint set. -/
def csArgoCD : CertificateSet :=
  { csBase with spec :=
      { csBase.spec with
          argocdCluster := true
          kubeconfigEndpoint := "https://demo.example.com:6443" } }

/-- A store where the CA and super-admin credential secrets are ready but
the ArgoCD namespace does not exist. -/
def envArgoCDMissing : Env :=
  { nullEnv with getSecret := fun nsp nm =>
      if nsp = "default" && (nm = "mycluster-ca" || nm = "mycluster-super-admin") then
        GetResult.found (readySecret nm)
      else GetResult.notFound }

/-- Witness for C5 at a concrete input. -/
theorem c5_argocd_namespace_missing_witness :
    (Reconcile envArgoCDMissing csArgoCD).err =
      some ("ArgoCD namespace \"" ++ ArgoCDNamespace ++ "\" does not exist") ∧
    (∀ s, Action.createSecret s ∈ (Reconcile envArgoCDMissing csArgoCD).actions →
      s.ns ≠ ArgoCDNamespace) := by
  have h := c5_argocd_namespace_missing envArgoCDMissing csArgoCD
    { caCert := base64Encode "ca", tlsCert := base64Encode "crt",
      tlsKey := base64Encode "key" }
    (reconcileCACertificates envArgoCDMissing csArgoCD).1
    (reconcileClientCertificates envArgoCDMissing csArgoCD).1
    rfl rfl rfl (by decide) rfl rfl rfl rfl rfl rfl
    (fun sec0 hsec0 => by cases hsec0; rfl)
  exact ⟨h.1, h.2.2.2.2⟩

/-! ## Claim C2: re-running a converged reconciliation -/

/-- C2 amended: re-running reconciliation against a fully converged
CertificateSet (no phase issues a write, every gate and the readiness
check pass, and all three terminal conditions are already recorded at the
current generation) changes nothing — each terminal setCondition returns
false and the object comes back unchanged — but the engine still issues
exactly one status patch call (whose delta against the snapshot is
empty); it does not skip status persistence. -/
theorem c2_converged_reconcile (env : Env) (cs : CertificateSet)
    (hdel : cs.deletionTimestamp = false)
    (hfin : containsFinalizer cs finalizerName = true)
    (hca : reconcileCACertificates env cs = ([], none))
    (hcasec : isSecretReady env cs.ns (CAName cs) = Except.ok true)
    (hcc : (cs.spec.kubeconfig || cs.spec.argocdCluster) = true →
      reconcileClientCertificates env cs = ([], none))
    (hsasec : (cs.spec.kubeconfig || cs.spec.argocdCluster) = true →
      isSecretReady env cs.ns (SuperAdminName cs) = Except.ok true)
    (hderiv : (cs.spec.kubeconfig || cs.spec.argocdCluster) = true →
      ∃ d, getCertificateData env cs.ns (SuperAdminName cs) = Except.ok d ∧
        reconcileDerivedSecrets env cs d = ([], none))
    (hdrift : cs.spec.argocdCluster = false →
      deleteSecretIfExists env ArgoCDNamespace (ArgoCDClusterName cs) = ([], none))
    (hchk : checkAllResourcesReady env cs = Except.ok (true, ""))
    (hready : findStatusCondition cs.conditions ConditionTypeReady =
      some { condType := ConditionTypeReady, status := ConditionTrue,
             observedGeneration := cs.generation, reason := "AllResourcesReady",
             message := "All certificate resources created and ready" })
    (hdeg : findStatusCondition cs.conditions ConditionTypeDegraded =
      some { condType := ConditionTypeDegraded, status := ConditionFalse,
             observedGeneration := cs.generation, reason := "Healthy",
             message := "No errors" })
    (hprog : findStatusCondition cs.conditions ConditionTypeProgressing =
      some { condType := ConditionTypeProgressing, status := ConditionFalse,
             observedGeneration := cs.generation, reason := "Complete",
             message := "Reconciliation complete" })
    (hpatch : env.patchStatusError = none) :
    (setCondition cs ConditionTypeReady ConditionTrue "AllResourcesReady"
        "All certificate resources created and ready").2 = false
  ∧ (setCondition cs ConditionTypeDegraded ConditionFalse "Healthy" "No errors").2 = false
  ∧ (setCondition cs ConditionTypeProgressing ConditionFalse "Complete"
        "Reconciliation complete").2 = false
  ∧ Reconcile env cs =
      { requeue := false, requeueAfter := 0, err := none, cs := cs,
        actions := [Action.patchStatus cs cs] } := by
  have hr1 := setCondition_noop cs ConditionTypeReady ConditionTrue "AllResourcesReady"
    "All certificate resources created and ready" _ hready rfl rfl rfl rfl
  have hr2 := setCondition_noop cs ConditionTypeDegraded ConditionFalse "Healthy"
    "No errors" _ hdeg rfl rfl rfl rfl
  have hr3 := setCondition_noop cs ConditionTypeProgressing ConditionFalse "Complete"
    "Reconciliation complete" _ hprog rfl rfl rfl rfl
  refine ⟨by rw [hr1], by rw [hr2], by rw [hr3], ?_⟩
  have hsteps : readinessSteps env cs cs [] =
      { requeue := false, requeueAfter := 0, err := none, cs := cs,
        actions := [Action.patchStatus cs cs] } := by
    simp only [readinessSteps, hchk, hr1, hr2, hr3, hpatch, List.nil_append]
  have htail : reconcileTail env cs cs [] =
      { requeue := false, requeueAfter := 0, err := none, cs := cs,
        actions := [Action.patchStatus cs cs] } := by
    cases hac : cs.spec.argocdCluster with
    | true => simp only [reconcileTail, hac, if_true]; exact hsteps
    | false =>
        simp only [reconcileTail, hac, Bool.false_eq_true, if_false]
        rw [hdrift hac]
        simpa using hsteps
  by_cases hflags : (cs.spec.kubeconfig || cs.spec.argocdCluster) = true
  · rcases hderiv hflags with ⟨d, hd1, hd2⟩
    simp only [Reconcile, hdel, Bool.false_eq_true, if_false, containsFinalizer]
    rw [show cs.finalizers.contains finalizerName = true from hfin]
    simp only [Bool.not_true, Bool.false_eq_true, if_false]
    rw [hca]
    simp only []
    rw [hcasec]
    simp only [hflags, if_true]
    rw [hcc hflags]
    simp only []
    rw [hsasec hflags, hd1]
    simp only []
    rw [hd2]
    simpa using htail
  · simp only [Reconcile, hdel, Bool.false_eq_true, if_false, containsFinalizer]
    rw [show cs.finalizers.contains finalizerName = true from hfin]
    simp only [Bool.not_true, Bool.false_eq_true, if_false]
    rw [hca]
    simp only []
    rw [hcasec]
    simp only [hflags, if_false]
    exact htail

/-- The three terminal conditions as recorded by a converged first pass at
generation 1. -/
def convergedConds : List Condition :=
  [{ condType := "Ready", status := "True", observedGeneration := 1,
     reason := "AllResourcesReady",
     message := "All certificate resources created and ready" },
   { condType := "Degraded", status := "False", observedGeneration := 1,
     reason := "Healthy", message := "No errors" },
   { condType := "Progressing", status := "False", observedGeneration := 1,
     reason := "Complete", message := "Reconciliation complete" }]

/-- csBase already converged: terminal conditions recorded at the current
generation. -/
def csConverged : CertificateSet := { csBase with conditions := convergedConds }

/-- The CA Certificate exactly as this controller stores it (owner set,
spec copied from the builder), reporting Ready=True. -/
def storedCAReady : Certificate :=
  { mutateCertificate csConverged (buildCACertificate csConverged)
      { name := CAName csConverged, ns := csConverged.ns, labels := [],
        annotations := [], ownerRef := none, spec := emptyCertificateSpec,
        statusConditions := [] } with
    statusConditions := [{ condType := "Ready", status := "True" }] }

/-- A store in the converged state for csConverged: the CA Certificate
matches the desired build and is Ready, the CA credential secret is
populated, and nothing else exists. -/
def envConverged : Env :=
  { nullEnv with
      getCertificate := fun nsp nm =>
        if nsp = "default" && nm = "mycluster-ca" then GetResult.found storedCAReady
        else GetResult.notFound
      getSecret := fun nsp nm =>
        if nsp = "default" && nm = "mycluster-ca" then
          GetResult.found (readySecret "mycluster-ca")
        else GetResult.notFound }

/-- Counterexample to C2 as stated: at this concrete converged input the
attempt changes no child resource and no condition (the object comes back
unchanged), yet its trace contains a status patch call — the claim that
"no status persistence call is issued" is false on the code, which calls
Status().Patch unconditionally in the terminal step. -/
theorem c2_counterexample :
    Reconcile envConverged csConverged =
      { requeue := false, requeueAfter := 0, err := none, cs := csConverged,
        actions := [Action.patchStatus csConverged csConverged] } ∧
    (Reconcile envConverged csConverged).actions ≠ [] := by
  have h1 : Reconcile envConverged csConverged =
      { requeue := false, requeueAfter := 0, err := none, cs := csConverged,
        actions := [Action.patchStatus csConverged csConverged] } := rfl
  exact ⟨h1, by rw [h1]; simp⟩

/-- Witness for the amended C2 at the concrete converged input. -/
theorem c2_converged_reconcile_witness :
    (setCondition csConverged ConditionTypeReady ConditionTrue "AllResourcesReady"
        "All certificate resources created and ready").2 = false
  ∧ (setCondition csConverged ConditionTypeDegraded ConditionFalse "Healthy"
        "No errors").2 = false
  ∧ (setCondition csConverged ConditionTypeProgressing ConditionFalse "Complete"
        "Reconciliation complete").2 = false
  ∧ Reconcile envConverged csConverged =
      { requeue := false, requeueAfter := 0, err := none, cs := csConverged,
        actions := [Action.patchStatus csConverged csConverged] } :=
  c2_converged_reconcile envConverged csConverged
    rfl rfl rfl rfl
    (fun h => absurd h (by decide))
    (fun h => absurd h (by decide))
    (fun h => absurd h (by decide))
    (fun _ => rfl)
    rfl rfl rfl rfl rfl

/-! ## Claim C4: readiness aggregation -/

theorem checkCertsReady_ok_true_iff (env : Env) (ns : String) (names : List String) :
    checkCertsReady env ns names = Except.ok (true, "") ↔
      ∀ n ∈ names, isCertificateReady env ns n = Except.ok true := by
  induction names with
  | nil => simp [checkCertsReady]
  | cons n rest ih =>
      simp only [checkCertsReady]
      cases h : isCertificateReady env ns n with
      | error e =>
          constructor
          · intro hfalse; exact absurd hfalse (by simp)
          · intro hall
            exact absurd (hall n (by simp)) (by simp [h])
      | ok b =>
          cases b with
          | false =>
              constructor
              · intro hfalse; exact absurd hfalse (by simp)
              · intro hall
                exact absurd (hall n (by simp)) (by simp [h])
          | true =>
              constructor
              · intro htrue m hm
                rcases List.mem_cons.mp hm with rfl | hm2
                · exact h
                · exact (ih.mp htrue) m hm2
              · intro hall
                exact ih.mpr (fun m hm => hall m (List.mem_cons_of_mem n hm))

theorem checkCertsReady_true_msg (env : Env) (ns : String) (names : List String)
    (m : String) (h : checkCertsReady env ns names = Except.ok (true, m)) : m = "" := by
  induction names with
  | nil =>
      simp only [checkCertsReady, Except.ok.injEq, Prod.mk.injEq] at h
      exact h.2.symm
  | cons n rest ih =>
      simp only [checkCertsReady] at h
      cases hc : isCertificateReady env ns n with
      | error e => rw [hc] at h; exact absurd h (by simp)
      | ok b =>
          cases b with
          | false => rw [hc] at h; exact absurd h (by simp)
          | true => rw [hc] at h; exact ih h

theorem checkAllResourcesReady_true_msg (env : Env) (cs : CertificateSet)
    (m : String) (h : checkAllResourcesReady env cs = Except.ok (true, m)) : m = "" := by
  unfold checkAllResourcesReady at h
  cases h1 : checkCertsReady env cs.ns (AllCertificateNames cs) with
  | error e => rw [h1] at h; exact absurd h (by simp)
  | ok p =>
      rcases p with ⟨b, m2⟩
      cases b with
      | false => rw [h1] at h; exact absurd h (by simp)
      | true =>
          rw [h1] at h
          by_cases hflags : (cs.spec.kubeconfig || cs.spec.argocdCluster) = true
          · rw [if_pos hflags] at h
            cases h2 : isIssuerReady env cs.ns (CAName cs) with
            | error e => rw [h2] at h; exact absurd h (by simp)
            | ok bi =>
                cases bi with
                | false => rw [h2] at h; exact absurd h (by simp)
                | true =>
                    rw [h2] at h
                    simp only [Except.ok.injEq, Prod.mk.injEq] at h
                    exact h.2.symm
          · rw [if_neg hflags] at h
            simp only [Except.ok.injEq, Prod.mk.injEq] at h
            exact h.2.symm

theorem checkAllResourcesReady_ok_true_iff (env : Env) (cs : CertificateSet) :
    checkAllResourcesReady env cs = Except.ok (true, "") ↔
      (∀ n ∈ AllCertificateNames cs, isCertificateReady env cs.ns n = Except.ok true) ∧
      ((cs.spec.kubeconfig || cs.spec.argocdCluster) = true →
        isIssuerReady env cs.ns (CAName cs) = Except.ok true) := by
  unfold checkAllResourcesReady
  cases h1 : checkCertsReady env cs.ns (AllCertificateNames cs) with
  | error e =>
      constructor
      · intro h; exact absurd h (by simp)
      · rintro ⟨hall, _⟩
        exact absurd ((checkCertsReady_ok_true_iff env cs.ns (AllCertificateNames cs)).mpr hall)
          (by simp [h1])
  | ok p =>
      rcases p with ⟨b, m⟩
      cases b with
      | false =>
          constructor
          · intro h; exact absurd h (by simp)
          · rintro ⟨hall, _⟩
            exact absurd ((checkCertsReady_ok_true_iff env cs.ns (AllCertificateNames cs)).mpr hall)
              (by simp [h1])
      | true =>
          have hm : m = "" := checkCertsReady_true_msg env cs.ns _ m h1
          subst hm
          have hall : ∀ n ∈ AllCertificateNames cs, isCertificateReady env cs.ns n = Except.ok true :=
            (checkCertsReady_ok_true_iff env cs.ns (AllCertificateNames cs)).mp h1
          by_cases hflags : (cs.spec.kubeconfig || cs.spec.argocdCluster) = true
          · rw [if_pos hflags]
            cases h2 : isIssuerReady env cs.ns (CAName cs) with
            | error e =>
                constructor
                · intro h; exact absurd h (by simp)
                · rintro ⟨_, hiss⟩
                  exact absurd (hiss hflags) (by simp [h2])
            | ok bi =>
                cases bi with
                | false =>
                    constructor
                    · intro h; exact absurd h (by simp)
                    · rintro ⟨_, hiss⟩
                      exact absurd (hiss hflags) (by simp [h2])
                | true =>
                    constructor
                    · intro _; exact ⟨hall, fun _ => rfl⟩
                    · intro _; rfl
          · rw [if_neg hflags]
            constructor
            · intro _; exact ⟨hall, fun hf => absurd hf hflags⟩
            · intro _; rfl

theorem checkCertsReady_first_not_ready (env : Env) (ns : String)
    (pre : List String) (n : String) (post : List String)
    (hpre : ∀ m ∈ pre, isCertificateReady env ns m = Except.ok true)
    (hn : isCertificateReady env ns n = Except.ok false) :
    checkCertsReady env ns (pre ++ n :: post) =
      Except.ok (false, "Certificate " ++ n ++ " is not ready") := by
  induction pre with
  | nil => simp [checkCertsReady, hn]
  | cons p ps ih =>
      have hp : isCertificateReady env ns p = Except.ok true := hpre p (by simp)
      simp only [List.cons_append, checkCertsReady, hp]
      exact ih (fun m hm => hpre m (by simp [hm]))

/-- The deletion branch never touches the conditions. -/
theorem reconcileDelete_conditions (env : Env) (cs : CertificateSet) :
    (reconcileDelete env cs).cs.conditions = cs.conditions := by
  unfold reconcileDelete
  rcases hds : deleteSecretIfExists env ArgoCDNamespace (ArgoCDClusterName cs) with ⟨das, derr⟩
  cases derr with
  | some e => rfl
  | none =>
      cases hu : env.updateObjectError with
      | some e => rfl
      | none => rfl

/-- If the object entered the readiness steps without a Ready condition
and the steps hand back one with status True, then the readiness check
passed and the reason is AllResourcesReady. -/
theorem readinessSteps_ready_true (env : Env) (csOrig cs : CertificateSet)
    (acc : List Action) :
    ∀ c, findStatusCondition (readinessSteps env csOrig cs acc).cs.conditions
        ConditionTypeReady = some c →
      c.status = ConditionTrue →
      checkAllResourcesReady env cs = Except.ok (true, "") ∧
        c.reason = "AllResourcesReady" := by
  intro c hfind hstatus
  simp only [readinessSteps] at hfind
  cases hchk : checkAllResourcesReady env cs with
  | error e =>
      rw [hchk] at hfind
      simp only [] at hfind
      rw [findStatusCondition_setCondition_ne _ ConditionTypeDegraded ConditionTrue
        "Error" e ConditionTypeReady (by decide)] at hfind
      rw [setCondition_find_self cs ConditionTypeReady ConditionFalse "CheckFailed" e]
        at hfind
      exfalso
      cases hfind
      simp [ConditionFalse, ConditionTrue] at hstatus
  | ok p =>
      rcases p with ⟨b, m⟩
      cases b with
      | false =>
          rw [hchk] at hfind
          simp only [] at hfind
          have hsame :
              findStatusCondition
                ((setCondition
                  ((setCondition
                    ((setCondition cs ConditionTypeReady ConditionFalse
                      "WaitingForResources" m).1)
                    ConditionTypeProgressing ConditionTrue "ResourcesPending" m).1)
                  ConditionTypeDegraded ConditionFalse "Healthy" "No errors").1).conditions
                ConditionTypeReady =
              some { condType := ConditionTypeReady, status := ConditionFalse,
                     observedGeneration := cs.generation,
                     reason := "WaitingForResources", message := m } := by
            rw [findStatusCondition_setCondition_ne _ ConditionTypeDegraded ConditionFalse
              "Healthy" "No errors" ConditionTypeReady (by decide)]
            rw [findStatusCondition_setCondition_ne _ ConditionTypeProgressing ConditionTrue
              "ResourcesPending" m ConditionTypeReady (by decide)]
            exact setCondition_find_self cs ConditionTypeReady ConditionFalse
              "WaitingForResources" m
          exfalso
          cases hp : env.patchStatusError with
          | some e =>
              rw [hp] at hfind
              simp only [] at hfind
              rw [hsame] at hfind
              cases hfind
              simp [ConditionFalse, ConditionTrue] at hstatus
          | none =>
              rw [hp] at hfind
              simp only [] at hfind
              rw [hsame] at hfind
              cases hfind
              simp [ConditionFalse, ConditionTrue] at hstatus
      | true =>
          have hm : m = "" := checkAllResourcesReady_true_msg env cs m hchk
          subst hm
          rw [hchk] at hfind
          simp only [] at hfind
          have hsame :
              findStatusCondition
                ((setCondition
                  ((setCondition
                    ((setCondition cs ConditionTypeReady ConditionTrue
                      "AllResourcesReady" "All certificate resources created and ready").1)
                    ConditionTypeDegraded ConditionFalse "Healthy" "No errors").1)
                  ConditionTypeProgressing ConditionFalse "Complete"
                  "Reconciliation complete").1).conditions ConditionTypeReady =
              some { condType := ConditionTypeReady, status := ConditionTrue,
                     observedGeneration := cs.generation,
                     reason := "AllResourcesReady",
                     message := "All certificate resources created and ready" } := by
            rw [findStatusCondition_setCondition_ne _ ConditionTypeProgressing ConditionFalse
              "Complete" "Reconciliation complete" ConditionTypeReady (by decide)]
            rw [findStatusCondition_setCondition_ne _ ConditionTypeDegraded ConditionFalse
              "Healthy" "No errors" ConditionTypeReady (by decide)]
            exact setCondition_find_self cs ConditionTypeReady ConditionTrue
              "AllResourcesReady" "All certificate resources created and ready"
          cases hp : env.patchStatusError with
          | some e =>
              rw [hp] at hfind
              simp only [] at hfind
              rw [hsame] at hfind
              cases hfind
              exact ⟨rfl, rfl⟩
          | none =>
              rw [hp] at hfind
              simp only [] at hfind
              rw [hsame] at hfind
              cases hfind
              exact ⟨rfl, rfl⟩

/-- Same as readinessSteps_ready_true, through the drift-cleanup tail. -/
theorem reconcileTail_ready_true (env : Env) (csOrig cs : CertificateSet)
    (acc : List Action)
    (hnone : findStatusCondition cs.conditions ConditionTypeReady = none) :
    ∀ c, findStatusCondition (reconcileTail env csOrig cs acc).cs.conditions
        ConditionTypeReady = some c →
      c.status = ConditionTrue →
      checkAllResourcesReady env cs = Except.ok (true, "") ∧
        c.reason = "AllResourcesReady" := by
  intro c hfind hstatus
  simp only [reconcileTail] at hfind
  cases hac : cs.spec.argocdCluster with
  | true =>
      rw [hac] at hfind
      simp only [if_true] at hfind
      exact readinessSteps_ready_true env csOrig cs acc c hfind hstatus
  | false =>
      rw [hac] at hfind
      simp only [Bool.false_eq_true, if_false] at hfind
      rcases hds : deleteSecretIfExists env ArgoCDNamespace (ArgoCDClusterName cs)
        with ⟨das, derr⟩
      rw [hds] at hfind
      cases derr with
      | some e =>
          simp only [] at hfind
          rw [findStatusCondition_setCondition_ne _ ConditionTypeDegraded ConditionTrue
            "ArgoCDCleanupFailed" e ConditionTypeReady (by decide), hnone] at hfind
          cases hfind
      | none =>
          simp only [] at hfind
          exact readinessSteps_ready_true env csOrig cs (acc ++ das) c hfind hstatus

/-- C4: (a) the readiness aggregation reports all-ready with an empty
reason exactly when every Certificate that should exist for the current
flags (AllCertificateNames: the CA always; etcd, proxy and ca-oidc for
system/infra; super-admin when kubeconfig or argocdCluster) reports
Ready=True, and — when kubeconfig or argocdCluster is enabled — the
Issuer does too; (b) the first not-ready Certificate short-circuits the
walk and the reason names it; (b2) with all Certificates ready, a
not-ready Issuer short-circuits with a reason naming it; (c) a Reconcile
attempt that hands back a Ready condition with status True (on an object
that had none) can only have produced it through a passing readiness
check, and its reason is AllResourcesReady. -/
theorem c4_readiness_aggregation (env : Env) (cs : CertificateSet) :
    (checkAllResourcesReady env cs = Except.ok (true, "") ↔
      (∀ n ∈ AllCertificateNames cs, isCertificateReady env cs.ns n = Except.ok true) ∧
      ((cs.spec.kubeconfig || cs.spec.argocdCluster) = true →
        isIssuerReady env cs.ns (CAName cs) = Except.ok true))
  ∧ (∀ pre n post, AllCertificateNames cs = pre ++ n :: post →
      (∀ m2 ∈ pre, isCertificateReady env cs.ns m2 = Except.ok true) →
      isCertificateReady env cs.ns n = Except.ok false →
      checkAllResourcesReady env cs =
        Except.ok (false, "Certificate " ++ n ++ " is not ready"))
  ∧ ((∀ n ∈ AllCertificateNames cs, isCertificateReady env cs.ns n = Except.ok true) →
      (cs.spec.kubeconfig || cs.spec.argocdCluster) = true →
      isIssuerReady env cs.ns (CAName cs) = Except.ok false →
      checkAllResourcesReady env cs =
        Except.ok (false, "Issuer " ++ CAName cs ++ " is not ready"))
  ∧ (findStatusCondition cs.conditions ConditionTypeReady = none →
      ∀ c, findStatusCondition (Reconcile env cs).cs.conditions ConditionTypeReady =
          some c →
        c.status = ConditionTrue →
        checkAllResourcesReady env cs = Except.ok (true, "") ∧
          c.reason = "AllResourcesReady") := by
  refine ⟨checkAllResourcesReady_ok_true_iff env cs, ?_, ?_, ?_⟩
  · intro pre n post hsplit hpre hn
    unfold checkAllResourcesReady
    rw [hsplit, checkCertsReady_first_not_ready env cs.ns pre n post hpre hn]
  · intro hall hflags hiss
    unfold checkAllResourcesReady
    rw [(checkCertsReady_ok_true_iff env cs.ns (AllCertificateNames cs)).mpr hall]
    simp only []
    rw [if_pos hflags, hiss]
  · intro hnone c hfind hstatus
    cases hdel : cs.deletionTimestamp with
    | true =>
        simp only [Reconcile, hdel, if_true] at hfind
        rw [reconcileDelete_conditions, hnone] at hfind
        cases hfind
    | false =>
        simp only [Reconcile, hdel, Bool.false_eq_true, if_false] at hfind
        cases hfin : containsFinalizer cs finalizerName with
        | false =>
            rw [hfin] at hfind
            simp only [Bool.not_false, if_true] at hfind
            cases hu : env.updateObjectError with
            | some e => rw [hu] at hfind; simp [hnone] at hfind
            | none => rw [hu] at hfind; simp [hnone] at hfind
        | true =>
            rw [hfin] at hfind
            simp only [Bool.not_true, Bool.false_eq_true, if_false] at hfind
            rcases hca : reconcileCACertificates env cs with ⟨as1, r1⟩
            rw [hca] at hfind
            cases r1 with
            | some e =>
                simp only [] at hfind
                rw [findStatusCondition_setCondition_ne _ ConditionTypeDegraded
                  ConditionTrue "CACertificatesFailed" e ConditionTypeReady (by decide),
                  hnone] at hfind
                cases hfind
            | none =>
                cases hsec : isSecretReady env cs.ns (CAName cs) with
                | error e => rw [hsec] at hfind; simp [hnone] at hfind
                | ok b =>
                    cases b with
                    | false => rw [hsec] at hfind; simp [hnone] at hfind
                    | true =>
                        rw [hsec] at hfind
                        simp only [] at hfind
                        by_cases hflags : (cs.spec.kubeconfig || cs.spec.argocdCluster) = true
                        · rw [if_pos hflags] at hfind
                          rcases hcc : reconcileClientCertificates env cs with ⟨as2, r2⟩
                          rw [hcc] at hfind
                          cases r2 with
                          | some e =>
                              simp only [] at hfind
                              rw [findStatusCondition_setCondition_ne _ ConditionTypeDegraded
                                ConditionTrue "ClientCertificatesFailed" e ConditionTypeReady
                                (by decide), hnone] at hfind
                              cases hfind
                          | none =>
                              cases hsa : isSecretReady env cs.ns (SuperAdminName cs) with
                              | error e => rw [hsa] at hfind; simp [hnone] at hfind
                              | ok b2 =>
                                  cases b2 with
                                  | false => rw [hsa] at hfind; simp [hnone] at hfind
                                  | true =>
                                      rw [hsa] at hfind
                                      simp only [] at hfind
                                      cases hcd : getCertificateData env cs.ns
                                          (SuperAdminName cs) with
                                      | error e => rw [hcd] at hfind; simp [hnone] at hfind
                                      | ok d =>
                                          rw [hcd] at hfind
                                          simp only [] at hfind
                                          rcases hder : reconcileDerivedSecrets env cs d
                                            with ⟨as3, r3⟩
                                          rw [hder] at hfind
                                          cases r3 with
                                          | some e =>
                                              simp only [] at hfind
                                              rw [findStatusCondition_setCondition_ne _
                                                ConditionTypeDegraded ConditionTrue
                                                "DerivedSecretsFailed" e ConditionTypeReady
                                                (by decide), hnone] at hfind
                                              cases hfind
                                          | none =>
                                              simp only [] at hfind
                                              exact reconcileTail_ready_true env cs cs _
                                                hnone c hfind hstatus
                        · rw [if_neg hflags] at hfind
                          exact reconcileTail_ready_true env cs cs _ hnone c hfind hstatus

/-- Witness for C4 at a concrete input: the converged store satisfies the
readiness check, derived through the (c) component of the theorem from
the Ready condition the attempt writes. -/
theorem c4_readiness_aggregation_witness :
    checkAllResourcesReady envConverged csBase = Except.ok (true, "") :=
  ((c4_readiness_aggregation envConverged csBase).2.2.2 rfl
    { condType := "Ready", status := "True", observedGeneration := 1,
      reason := "AllResourcesReady",
      message := "All certificate resources created and ready" } rfl rfl).1

end CertSetProof
